import Mathlib

/-!
Verification of the vector-path reconstruction and primitive-detection
engine of `pdf2dwg` (`src/pdf2dwg/pdf_extractor.py`), as a shallow
embedding in Lean 4.

Python floats are modelled as real numbers.  Calls into external numeric
libraries (`numpy.linalg.lstsq` for the circle fit and the generalized
eigensolver for the ellipse fit) are modelled as an abstract `solver`
parameter: the solver returns the solution vector of the linear system
(or `none`, modelling any library failure caught by the surrounding
`try/except`).  Everything downstream of the solver call is translated
from the source line by line.
-/

open scoped Classical

noncomputable section

namespace PdfExtract

/-- 2D point with x, y coordinates (source: class `Point`). -/
@[ext]
structure Point where
  x : ℝ
  y : ℝ

/-- Tolerance-based equality of `Point.__eq__` (absolute tolerance 1e-6). -/
def Point.approx (p q : Point) : Prop :=
  |p.x - q.x| < 1e-6 ∧ |p.y - q.y| < 1e-6

/-- Euclidean distance (source: `Point.distance_to`). -/
def Point.distance_to (p q : Point) : ℝ :=
  Real.sqrt ((p.x - q.x) ^ 2 + (p.y - q.y) ^ 2)

/-- Python's `round(x, 6)`: round `x` to 6 decimal places.  Python rounds
half to even while Mathlib's `round` rounds half up; the two agree except
at exact ties (odd multiples of 5e-7), which no theorem below touches. -/
def round6 (x : ℝ) : ℝ :=
  (round (x * 1000000) : ℝ) / 1000000

/-- The key Python's `Point.__hash__` feeds to `hash`: the tuple of the two
coordinates rounded to 6 decimals (source: `hash((round(self.x, 6),
round(self.y, 6)))`).  CPython's tuple-of-float hash is injective on all
key pairs appearing in the theorems below, so the hash is modelled by the
key itself. -/
def pointHashKey (p : Point) : ℝ × ℝ :=
  (round6 p.x, round6 p.y)

/-- Line types for DXF (source: enum `LineType`). -/
inductive LineType where
  | continuous
  | dashed
  | dashdot
  | dashdot2
  | dotted
  | hidden
deriving DecidableEq

/-- RGB color triple (floats 0-1). -/
abbrev RGB : Type := ℝ × ℝ × ℝ

/-- A line segment (source: dataclass `Line`). -/
structure Line where
  start : Point
  «end» : Point
  color : RGB
  width : ℝ
  layer : String
  linetype : LineType

/-- An arc (source: dataclass `Arc`; angles in degrees). -/
structure Arc where
  center : Point
  radius : ℝ
  start_angle : ℝ
  end_angle : ℝ
  color : RGB
  width : ℝ
  layer : String
  linetype : LineType

/-- A full circle (source: dataclass `Circle`). -/
structure Circle where
  center : Point
  radius : ℝ
  color : RGB
  width : ℝ
  layer : String
  linetype : LineType

/-- An ellipse or elliptical arc (source: dataclass `Ellipse`). -/
structure Ellipse where
  center : Point
  major_axis : Point
  ratio : ℝ
  start_param : ℝ
  end_param : ℝ
  color : RGB
  width : ℝ
  layer : String
  linetype : LineType

/-- A polyline (source: dataclass `Polyline`; the `bulges` field is never
touched by the code under verification and is omitted). -/
structure Polyline where
  points : List Point
  closed : Bool
  color : RGB
  width : ℝ
  layer : String
  linetype : LineType

/-- A spline (source: dataclass `Spline`; only fields relevant here). -/
structure Spline where
  control_points : List Point
  degree : ℕ

/-- A text element (source: dataclass `TextEntity`; abbreviated to the
fields needed to state that the collection is untouched). -/
structure TextEntity where
  text : String
  position : Point
  height : ℝ

/-- A multiline text element (source: dataclass `MText`; abbreviated). -/
structure MText where
  text : String
  position : Point

/-- A rectangle (source: dataclass `Rectangle`). -/
structure Rectangle where
  corner : Point
  width : ℝ
  height : ℝ
  color : RGB
  line_width : ℝ
  layer : String
  linetype : LineType
  fill_color : Option RGB

/-- A filled region (source: dataclass `Hatch`; abbreviated). -/
structure Hatch where
  boundary_paths : List (List Point)
  pattern_name : String
  color : RGB

/-- A raster image (source: dataclass `ImageEntity`; abbreviated). -/
structure ImageEntity where
  position : Point
  width : ℝ
  height : ℝ

/-- Container for all extracted vector data (source: dataclass
`ExtractedData`). -/
structure ExtractedData where
  lines : List Line
  arcs : List Arc
  circles : List Circle
  ellipses : List Ellipse
  polylines : List Polyline
  splines : List Spline
  texts : List TextEntity
  mtexts : List MText
  rectangles : List Rectangle
  hatches : List Hatch
  images : List ImageEntity
  width : ℝ
  height : ℝ
  layers : List (String × String)

/-! ### Curve flattener (source: `_bezier_to_points`, `_quad_bezier_to_points`) -/

/-- The ratio-driven tier selection of `_bezier_to_points` (cubic case).
Python's `int(...)` truncates toward zero; every truncated value here is
positive, so it is the natural floor. -/
def tierCubic (r : ℝ) (segments : ℕ) : ℕ :=
  if 1.5 < r then min 64 ⌊(segments : ℝ) * r⌋₊
  else if 1.2 < r then min 48 ⌊(segments : ℝ) * 1.5⌋₊
  else if 1.1 < r then min 32 ⌊(segments : ℝ) * 1.2⌋₊
  else segments

/-- The absolute-size bump of `_bezier_to_points`: force at least 32/24
segments for control polygons longer than 100/50 units. -/
def bumpAbs (control_len : ℝ) (s : ℕ) : ℕ :=
  if 100 < control_len then max s 32
  else if 50 < control_len then max s 24
  else s

/-- Adaptive segment-count selection of `_bezier_to_points` (cubic
case): apply the ratio tiers when the chord is above 0.001, then the
absolute-size bump. -/
def adaptSegsCubic (chord control_len : ℝ) (segments : ℕ) : ℕ :=
  bumpAbs control_len
    (if 0.001 < chord then tierCubic (control_len / chord) segments else segments)

/-- The ratio-driven tier selection of `_quad_bezier_to_points`. -/
def tierQuad (r : ℝ) (segments : ℕ) : ℕ :=
  if 1.3 < r then min 32 ⌊(segments : ℝ) * r⌋₊
  else if 1.1 < r then min 24 ⌊(segments : ℝ) * 1.3⌋₊
  else segments

/-- Adaptive segment-count selection of `_quad_bezier_to_points`. -/
def adaptSegsQuad (chord control_len : ℝ) (segments : ℕ) : ℕ :=
  if 0.001 < chord then tierQuad (control_len / chord) segments else segments

/-- Chord length of a cubic Bezier (source: `chord_length`). -/
def chordCubic (p0 p3 : Point) : ℝ := p0.distance_to p3

/-- Control-polygon length of a cubic Bezier (source: `control_length`). -/
def controlLenCubic (p0 p1 p2 p3 : Point) : ℝ :=
  p0.distance_to p1 + p1.distance_to p2 + p2.distance_to p3

/-- Control-polygon length of a quadratic Bezier. -/
def controlLenQuad (p0 p1 p2 : Point) : ℝ :=
  p0.distance_to p1 + p1.distance_to p2

/-- The final segment count used by `_bezier_to_points`. -/
def bezierSegs (p0 p1 p2 p3 : Point) (segments : ℕ) (adaptive : Bool) : ℕ :=
  if adaptive then
    adaptSegsCubic (chordCubic p0 p3) (controlLenCubic p0 p1 p2 p3) segments
  else segments

/-- Convert a cubic Bezier curve to line segments with adaptive sampling
(source: `_bezier_to_points`). -/
def bezier_to_points (p0 p1 p2 p3 : Point) (segments : ℕ) (adaptive : Bool := true) :
    List Point :=
  (List.range (bezierSegs p0 p1 p2 p3 segments adaptive + 1)).map fun (i : ℕ) =>
    let t := (i : ℝ) / (bezierSegs p0 p1 p2 p3 segments adaptive : ℝ)
    let mt := 1 - t
    ⟨mt ^ 3 * p0.x + 3 * mt ^ 2 * t * p1.x + 3 * mt * t ^ 2 * p2.x + t ^ 3 * p3.x,
     mt ^ 3 * p0.y + 3 * mt ^ 2 * t * p1.y + 3 * mt * t ^ 2 * p2.y + t ^ 3 * p3.y⟩

/-- The final segment count used by `_quad_bezier_to_points`. -/
def quadSegs (p0 p1 p2 : Point) (segments : ℕ) (adaptive : Bool) : ℕ :=
  if adaptive then
    adaptSegsQuad (p0.distance_to p2) (controlLenQuad p0 p1 p2) segments
  else segments

/-- Convert a quadratic Bezier curve to line segments with adaptive
sampling (source: `_quad_bezier_to_points`). -/
def quad_bezier_to_points (p0 p1 p2 : Point) (segments : ℕ) (adaptive : Bool := true) :
    List Point :=
  (List.range (quadSegs p0 p1 p2 segments adaptive + 1)).map fun (i : ℕ) =>
    let t := (i : ℝ) / (quadSegs p0 p1 p2 segments adaptive : ℝ)
    let mt := 1 - t
    ⟨mt * mt * p0.x + 2 * mt * t * p1.x + t * t * p2.x,
     mt * mt * p0.y + 2 * mt * t * p1.y + t * t * p2.y⟩

/-! ### Angle helpers (source: `_is_full_circle`, `_is_ccw`,
`_calculate_arc_angles`) -/

/-- Python's `math.atan2(y, x)`, realized as the argument of the complex
number `x + y*i`; both lie in `(-pi, pi]` and both send `(0, 0)` to `0`. -/
def atan2 (y x : ℝ) : ℝ := Complex.arg ⟨x, y⟩

/-- Python's `math.degrees`. -/
def degOf (r : ℝ) : ℝ := r * 180 / Real.pi

/-- Sum of the gaps between consecutive sorted angles that are below pi
(the loop of `_is_full_circle`). -/
def gapSum : List ℝ → ℝ
  | a :: b :: rest => (if b - a < Real.pi then b - a else 0) + gapSum (b :: rest)
  | _ => 0

/-- The wrap-around gap from the last sorted angle back to the first
(source: `_is_full_circle`, `wrap_gap`). -/
def wrapGap : List ℝ → ℝ
  | [] => 0
  | a :: rest =>
    if 2 * Real.pi - ((a :: rest).getLastD 0 - a) < Real.pi then
      2 * Real.pi - ((a :: rest).getLastD 0 - a)
    else 0

/-- Angles of all points about a center (source: `_is_full_circle`). -/
def anglesAbout (points : List Point) (center : ℝ × ℝ) : List ℝ :=
  points.map fun p => atan2 (p.y - center.2) (p.x - center.1)

/-- Total angular coverage of a point list about a center: sort the
bearings, sum the sub-pi consecutive gaps, and add the wrap-around gap
when it is below pi (source: `_is_full_circle`). -/
def angularCoverage (points : List Point) (center : ℝ × ℝ) : ℝ :=
  let sorted := (anglesAbout points center).insertionSort (· ≤ ·)
  gapSum sorted + wrapGap sorted

/-- Check whether points cover a full circle (source: `_is_full_circle`;
the `radius` argument is unused in the source as well). -/
def isFullCircle (points : List Point) (center : ℝ × ℝ) (_radius : ℝ) : Prop :=
  if points.length < 8 then False
  else 0.9 * (2 * Real.pi) < angularCoverage points center

/-- Twice the signed area of the polygon about a center (the accumulator
of `_is_ccw`). -/
def signedAreaAbout : List Point → ℝ × ℝ → ℝ
  | p1 :: p2 :: rest, c =>
    ((p1.x - c.1) * (p2.y - c.2) - (p2.x - c.1) * (p1.y - c.2)) +
      signedAreaAbout (p2 :: rest) c
  | _, _ => 0

/-- Whether points wind counter-clockwise about the center (source:
`_is_ccw`). -/
def isCCW (points : List Point) (center : ℝ × ℝ) : Prop :=
  if points.length < 3 then True
  else 0 < signedAreaAbout points center

/-- Bearing of a point from a center, in degrees normalized to
`[0, 360)` (one leg of `_calculate_arc_angles`). -/
def bearingDeg (center : ℝ × ℝ) (p : Point) : ℝ :=
  let d := degOf (atan2 (p.y - center.2) (p.x - center.1))
  if d < 0 then d + 360 else d

/-- Start/end angles of an arc in degrees (source:
`_calculate_arc_angles`). -/
def calcArcAngles (center : ℝ × ℝ) (s e : Point) : ℝ × ℝ :=
  (bearingDeg center s, bearingDeg center e)

/-! ### Circle fitter and circle/arc detection (source: `_fit_circle`,
`detect_circles_and_arcs`) -/

/-- Least-squares circle fit (source: `_fit_circle`).  The call
`np.linalg.lstsq(A, b)` solving `x*D + y*E + F = x^2 + y^2` is the
`solver` argument; `none` models a library failure swallowed by the
source's `try/except`.  Everything after the solve is translated
directly: center `(D/2, E/2)`, squared radius `F + cx^2 + cy^2` (rejected
when non-positive), and the RMS radial residual. -/
def fitCircle (solver : List Point → Option (ℝ × ℝ × ℝ)) (points : List Point) :
    Option ((ℝ × ℝ) × ℝ × ℝ) :=
  if points.length < 3 then none
  else
    match solver points with
    | none => none
    | some (d, e, f) =>
      let cx := d / 2
      let cy := e / 2
      let rSq := f + cx * cx + cy * cy
      if rSq ≤ 0 then none
      else
        let radius := Real.sqrt rSq
        let errs := points.map fun p =>
          (Real.sqrt ((p.x - cx) ^ 2 + (p.y - cy) ^ 2) - radius) ^ 2
        some ((cx, cy), radius, Real.sqrt (errs.sum / errs.length))

/-- Result of examining one polyline in `detect_circles_and_arcs`:
either it is kept in the polyline set, or promoted. -/
inductive CAResult where
  | keep
  | circle (c : Circle)
  | arc (a : Arc)

/-- The body of the `detect_circles_and_arcs` loop for one polyline:
require at least 6 points, fit a circle, accept when `radius > 0.5` and
the RMS error is below `tolerance * radius`, then classify as full
circle (when `_is_full_circle` holds and the polyline is closed) or as
an arc whose angles come from `_calculate_arc_angles`, swapped when the
points are not counter-clockwise. -/
def circleArcStep (fit : List Point → Option ((ℝ × ℝ) × ℝ × ℝ)) (tolerance : ℝ)
    (pl : Polyline) : CAResult :=
  if pl.points.length < 6 then .keep
  else
    match fit pl.points with
    | none => .keep
    | some (center, radius, err) =>
      if 0.5 < radius ∧ err < tolerance * radius then
        if isFullCircle pl.points center radius ∧ pl.closed = true then
          .circle ⟨⟨center.1, center.2⟩, radius, pl.color, pl.width, pl.layer, pl.linetype⟩
        else
          let angles := calcArcAngles center (pl.points.headD ⟨0, 0⟩) (pl.points.getLastD ⟨0, 0⟩)
          let swapped := if ¬ isCCW pl.points center then (angles.2, angles.1) else angles
          .arc ⟨⟨center.1, center.2⟩, radius, swapped.1, swapped.2,
                pl.color, pl.width, pl.layer, pl.linetype⟩
      else .keep

/-- Run a circle/arc step over the polyline list, collecting the kept
polylines and the promoted circles and arcs in traversal order (the
`new_polylines` / `data.circles.append` / `data.arcs.append` bookkeeping
of `detect_circles_and_arcs`). -/
def runCA (step : Polyline → CAResult) : List Polyline → List Polyline × List Circle × List Arc
  | [] => ([], [], [])
  | pl :: rest =>
    let r := runCA step rest
    match step pl with
    | .keep => (pl :: r.1, r.2.1, r.2.2)
    | .circle c => (r.1, c :: r.2.1, r.2.2)
    | .arc a => (r.1, r.2.1, a :: r.2.2)

/-- Post-process polylines to detect circles and arcs (source:
`detect_circles_and_arcs`; default tolerance 0.02). -/
def detectCirclesAndArcs (solver : List Point → Option (ℝ × ℝ × ℝ)) (tolerance : ℝ)
    (data : ExtractedData) : ExtractedData :=
  let r := runCA (circleArcStep (fitCircle solver) tolerance) data.polylines
  { data with
    polylines := r.1
    circles := data.circles ++ r.2.1
    arcs := data.arcs ++ r.2.2 }

/-! ### Ellipse fitter and ellipse detection (source: `_fit_ellipse`,
`_is_full_ellipse`, `_calculate_ellipse_params`, `detect_ellipses`) -/

/-- The fit result of `_fit_ellipse`: center, major axis vector, minor
axis vector, rotation, RMS error. -/
def EllipseFit : Type := (ℝ × ℝ) × (ℝ × ℝ) × (ℝ × ℝ) × ℝ × ℝ

/-- Algebraic ellipse fit (source: `_fit_ellipse`).  Building the design
matrix and selecting the conic coefficients from the generalized
eigenproblem (`np.linalg.eig` over `inv(S) @ C`) is the `solver`
argument, returning the conic coefficients `(a, b, c, d, e, f)` of
`a*x^2 + b*x*y + c*y^2 + d*x + e*y + f = 0`, or `none` when no valid
eigenvalue exists or the library fails.  The canonicalization that
follows is translated directly from the source.  In the source the
per-point error is appended under a `semi_major > 0 and semi_minor > 0`
guard that always holds in this branch (both are square roots of
positive numbers), and the `rms_error = inf` fallback for an empty error
list is dead code since `n >= 6`. -/
def fitEllipse (solver : List Point → Option (ℝ × ℝ × ℝ × ℝ × ℝ × ℝ))
    (points : List Point) : Option EllipseFit :=
  if points.length < 6 then none
  else
    match solver points with
    | none => none
    | some (a, b, c, d, e, f) =>
      let disc := b * b - 4 * a * c
      if 0 ≤ disc then none
      else
        let cx := (2 * c * d - b * e) / disc
        let cy := (2 * a * e - b * d) / disc
        let theta :=
          if |a - c| < 1e-10 then (if 0 < b then Real.pi / 4 else -(Real.pi / 4))
          else 0.5 * atan2 b (a - c)
        let ct := Real.cos theta
        let st := Real.sin theta
        let aP := a * ct * ct + b * ct * st + c * st * st
        let cP := a * st * st - b * ct * st + c * ct * ct
        let fP := a * cx * cx + b * cx * cy + c * cy * cy + d * cx + e * cy + f
        if |aP| < 1e-10 ∨ |cP| < 1e-10 then none
        else
          let aSq := -fP / aP
          let bSq := -fP / cP
          if aSq ≤ 0 ∨ bSq ≤ 0 then none
          else
            let semiMajor := Real.sqrt (max aSq bSq)
            let semiMinor := Real.sqrt (min aSq bSq)
            let axes :=
              if bSq ≤ aSq then
                ((semiMajor * ct, semiMajor * st), (-semiMinor * st, semiMinor * ct))
              else
                ((semiMajor * st, -(semiMajor * ct)), (semiMinor * ct, semiMinor * st))
            let errs := points.map fun p =>
              let dx := p.x - cx
              let dy := p.y - cy
              let px := dx * ct + dy * st
              let py := -dx * st + dy * ct
              |(px / semiMajor) ^ 2 + (py / semiMinor) ^ 2 - 1| * min semiMajor semiMinor
            some ((cx, cy), axes.1, axes.2, theta,
                  Real.sqrt ((errs.map fun er => er * er).sum / errs.length))

/-- Check whether points cover a full ellipse (source:
`_is_full_ellipse`; the `minor_axis` argument is unused in the source as
well). -/
def isFullEllipse (points : List Point) (center : ℝ × ℝ)
    (majorAxis : ℝ × ℝ) (_minorAxis : ℝ × ℝ) : Prop :=
  if points.length < 10 then False
  else
    let majorLen := Real.sqrt (majorAxis.1 ^ 2 + majorAxis.2 ^ 2)
    if majorLen < 1e-10 then False
    else
      let theta := atan2 majorAxis.2 majorAxis.1
      let ct := Real.cos (-theta)
      let st := Real.sin (-theta)
      let angles := (points.map fun p =>
        let dx := p.x - center.1
        let dy := p.y - center.2
        atan2 (-dx * st + dy * ct) (dx * ct + dy * st)).insertionSort (· ≤ ·)
      0.85 * (2 * Real.pi) < gapSum angles + wrapGap angles

/-- Ellipse-frame parameters of the first/last subpath points (source:
`_calculate_ellipse_params`; the axis arguments are unused in the source
as well). -/
def calcEllipseParams (center : ℝ × ℝ) (_majorAxis _minorAxis : ℝ × ℝ)
    (rotation : ℝ) (s e : Point) : ℝ × ℝ :=
  let ct := Real.cos (-rotation)
  let st := Real.sin (-rotation)
  let sdx := s.x - center.1
  let sdy := s.y - center.2
  let sp := atan2 (-sdx * st + sdy * ct) (sdx * ct + sdy * st)
  let edx := e.x - center.1
  let edy := e.y - center.2
  let ep := atan2 (-edx * st + edy * ct) (edx * ct + edy * st)
  (if sp < 0 then sp + 2 * Real.pi else sp, if ep < 0 then ep + 2 * Real.pi else ep)

/-- Result of examining one polyline in `detect_ellipses`. -/
inductive EResult where
  | keep
  | ellipse (e : Ellipse)

/-- The body of the `detect_ellipses` loop for one polyline: require at
least 8 points, fit, accept when `major_len > 0.5` and the error is
below `tolerance * major_len`, defer back to the polyline set when the
minor:major ratio exceeds 0.95, and otherwise emit a full ellipse or an
elliptical arc. -/
def ellipseStep (fit : List Point → Option EllipseFit) (tolerance : ℝ)
    (pl : Polyline) : EResult :=
  if pl.points.length < 8 then .keep
  else
    match fit pl.points with
    | none => .keep
    | some (center, majorAxis, minorAxis, rotation, err) =>
      let majorLen := Real.sqrt (majorAxis.1 ^ 2 + majorAxis.2 ^ 2)
      if 0.5 < majorLen ∧ err < tolerance * majorLen then
        let ratio :=
          if 0 < majorLen then Real.sqrt (minorAxis.1 ^ 2 + minorAxis.2 ^ 2) / majorLen
          else 0
        if 0.95 < ratio then .keep
        else if isFullEllipse pl.points center majorAxis minorAxis ∧ pl.closed = true then
          .ellipse ⟨⟨center.1, center.2⟩, ⟨majorAxis.1, majorAxis.2⟩, ratio,
                    0, 2 * Real.pi, pl.color, pl.width, pl.layer, pl.linetype⟩
        else
          let params := calcEllipseParams center majorAxis minorAxis rotation
            (pl.points.headD ⟨0, 0⟩) (pl.points.getLastD ⟨0, 0⟩)
          .ellipse ⟨⟨center.1, center.2⟩, ⟨majorAxis.1, majorAxis.2⟩, ratio,
                    params.1, params.2, pl.color, pl.width, pl.layer, pl.linetype⟩
      else .keep

/-- Run an ellipse step over the polyline list, collecting kept
polylines and emitted ellipses in traversal order. -/
def runEll (step : Polyline → EResult) : List Polyline → List Polyline × List Ellipse
  | [] => ([], [])
  | pl :: rest =>
    let r := runEll step rest
    match step pl with
    | .keep => (pl :: r.1, r.2)
    | .ellipse e => (r.1, e :: r.2)

/-- Post-process polylines to detect ellipses (source: `detect_ellipses`;
default tolerance 0.05). -/
def detectEllipses (solver : List Point → Option (ℝ × ℝ × ℝ × ℝ × ℝ × ℝ)) (tolerance : ℝ)
    (data : ExtractedData) : ExtractedData :=
  let r := runEll (ellipseStep (fitEllipse solver) tolerance) data.polylines
  { data with
    polylines := r.1
    ellipses := data.ellipses ++ r.2 }

/-! ### Primitive classifier (source: `_save_path_entity`, `_is_rectangle`) -/

/-- One step of the duplicate-detecting linear scan of `_is_rectangle`:
append `v` to the accepted values unless an already-accepted value lies
within the tolerance. -/
def addDistinct (tolerance : ℝ) (acc : List ℝ) (v : ℝ) : List ℝ :=
  if ∃ u ∈ acc, |v - u| < tolerance then acc else acc ++ [v]

/-- The distinct values of a list under the tolerance-based linear scan
of `_is_rectangle`. -/
def distinctVals (tolerance : ℝ) (vals : List ℝ) : List ℝ :=
  vals.foldl (addDistinct tolerance) []

/-- Check whether points form an axis-aligned rectangle (source:
`_is_rectangle`): at least 4 points, and the first 4 reduce to exactly 2
distinct x-values and 2 distinct y-values within tolerance 0.5. -/
def isRectangle (points : List Point) : Prop :=
  4 ≤ points.length ∧
    (distinctVals 0.5 ((points.take 4).map Point.x)).length = 2 ∧
    (distinctVals 0.5 ((points.take 4).map Point.y)).length = 2

/-- Python's `min` over a generator of reals (never called on an empty
list by the source). -/
def listMin : List ℝ → ℝ
  | [] => 0
  | v :: vs => vs.foldl min v

/-- Python's `max` over a generator of reals. -/
def listMax : List ℝ → ℝ
  | [] => 0
  | v :: vs => vs.foldl max v

/-- The single entity produced by `_save_path_entity`. -/
inductive PathEntity where
  | line (l : Line)
  | rect (r : Rectangle)
  | poly (p : Polyline)

/-- Classify a finished subpath (source: `_save_path_entity`): exactly 2
points give a `Line`; at least 4 points, closed, passing `_is_rectangle`
give a `Rectangle` spanned by the min/max coordinates of the first 4
points; anything else gives a `Polyline`.  (The source additionally
appends a SOLID `Hatch` for a closed filled polyline of at least 3
points; that side effect goes to the hatch collection, not to the
entity choice modelled here.) -/
def savePathEntity (points : List Point) (closed : Bool) (color : RGB)
    (width : ℝ) (linetype : LineType) (fill_color : Option RGB) : PathEntity :=
  if points.length = 2 then
    .line ⟨points.getD 0 ⟨0, 0⟩, points.getD 1 ⟨0, 0⟩, color, width, "0", linetype⟩
  else if 4 ≤ points.length ∧ closed = true ∧ isRectangle points then
    let pts := points.take 4
    let minX := listMin (pts.map Point.x)
    let minY := listMin (pts.map Point.y)
    let maxX := listMax (pts.map Point.x)
    let maxY := listMax (pts.map Point.y)
    .rect ⟨⟨minX, minY⟩, maxX - minX, maxY - minY, color, width, "0", linetype, fill_color⟩
  else
    .poly ⟨points, closed, color, width, "0", linetype⟩

/-! ### Subpath reconstructor (source: the item loop of
`_extract_drawings`) -/

/-- A subpath produced by the reconstructor (the dict literals appended
to `all_subpaths`). -/
structure Subpath where
  points : List Point
  closed : Bool
  has_curves : Bool

/-- Path-drawing commands, one constructor per item kind handled by the
`_extract_drawings` loop.  Point arguments carry coordinates already
transformed into the target space, as the source transforms each item's
points before using them; the `rect` command carries the raw PDF rect. -/
inductive PathCmd where
  | move (p : Point)
  | lineSeg (s e : Point)
  | cubic (c1 c2 e : Point)
  | cubicV (c2 e : Point)
  | cubicY (c1 e : Point)
  | quad (c e : Point)
  | rect (x0 y0 x1 y1 : ℝ)
  | close

/-- Per-path context: stroke style, fill, and the coordinate transform
parameters used by the `re` handler. -/
structure PathCtx where
  color : RGB
  width : ℝ
  linetype : LineType
  fill_color : Option RGB
  scale : ℝ
  pageHeight : ℝ

/-- The mutable loop state of `_extract_drawings`: the collected
subpaths, the pen position, the points of the in-progress subpath, its
start point, the curve flag, and the rectangles/hatches appended by the
`re` handler. -/
structure SubpathState where
  allSubpaths : List Subpath
  currentPoint : Option Point
  pathPoints : List Point
  pathStart : Option Point
  hasCurves : Bool
  rects : List Rectangle
  hatches : List Hatch

/-- The initial loop state. -/
def initState : SubpathState := ⟨[], none, [], none, false, [], []⟩

/-- Transform a PDF point to CAD coordinates (source: `_transform_point`
with `_transform_y`). -/
def transformPoint (x y scale pageHeight : ℝ) : Point :=
  ⟨x * scale, (pageHeight - y) * scale⟩

/-- The `Rectangle` built by the `re` branch of `_extract_drawings`:
corner at the transformed `(x0, y1)`, extents scaled from the rect's
width and height. -/
def rectFromRe (x0 y0 x1 y1 : ℝ) (ctx : PathCtx) : Rectangle :=
  ⟨transformPoint x0 y1 ctx.scale ctx.pageHeight,
   (x1 - x0) * ctx.scale, (y1 - y0) * ctx.scale,
   ctx.color, ctx.width, "0", ctx.linetype, ctx.fill_color⟩

/-- The guarded flush `if len(path_points) > 1:
all_subpaths.append(...)` of `_extract_drawings`. -/
def flushInto (sps : List Subpath) (pts : List Point) (closed : Bool) (hc : Bool) :
    List Subpath :=
  if 1 < pts.length then sps ++ [⟨pts, closed, hc⟩] else sps

/-- One step of the `_extract_drawings` item loop. -/
def stepCmd (ctx : PathCtx) (st : SubpathState) : PathCmd → SubpathState
  | .move p =>
    { st with
      allSubpaths := flushInto st.allSubpaths st.pathPoints false st.hasCurves
      pathPoints := [p]
      hasCurves := false
      currentPoint := some p
      pathStart := some p }
  | .lineSeg s e =>
    if st.currentPoint = none ∨ st.pathPoints.length = 0 then
      { st with
        pathPoints := st.pathPoints ++ [s] ++ [e]
        pathStart := some s
        currentPoint := some e }
    else if ¬ (st.currentPoint.getD ⟨0, 0⟩).approx s then
      { st with
        allSubpaths := flushInto st.allSubpaths st.pathPoints false st.hasCurves
        pathPoints := [s] ++ [e]
        pathStart := some s
        hasCurves := false
        currentPoint := some e }
    else
      { st with
        pathPoints := st.pathPoints ++ [e]
        currentPoint := some e }
  | .cubic c1 c2 e =>
    let extended :=
      match st.currentPoint with
      | some cur => st.pathPoints ++ (bezier_to_points cur c1 c2 e 16).drop 1
      | none => st.pathPoints
    { st with
      pathPoints := extended
      hasCurves := true
      currentPoint := some e }
  | .cubicV c2 e =>
    match st.currentPoint with
    | some cur =>
      { st with
        pathPoints := st.pathPoints ++ (bezier_to_points cur cur c2 e 16).drop 1
        hasCurves := true
        currentPoint := some e }
    | none => st
  | .cubicY c1 e =>
    match st.currentPoint with
    | some cur =>
      { st with
        pathPoints := st.pathPoints ++ (bezier_to_points cur c1 e e 16).drop 1
        hasCurves := true
        currentPoint := some e }
    | none => st
  | .quad c e =>
    match st.currentPoint with
    | some cur =>
      { st with
        pathPoints := st.pathPoints ++ (quad_bezier_to_points cur c e 12).drop 1
        hasCurves := true
        currentPoint := some e }
    | none => st
  | .rect x0 y0 x1 y1 =>
    let r := rectFromRe x0 y0 x1 y1 ctx
    let newHatches :=
      match ctx.fill_color with
      | some fc =>
        st.hatches ++ [⟨[[r.corner, ⟨r.corner.x + r.width, r.corner.y⟩,
                          ⟨r.corner.x + r.width, r.corner.y + r.height⟩,
                          ⟨r.corner.x, r.corner.y + r.height⟩, r.corner]], "SOLID", fc⟩]
      | none => st.hatches
    { st with rects := st.rects ++ [r], hatches := newHatches }
  | .close =>
    let withStart :=
      match st.pathStart, st.currentPoint with
      | some s, some c => if ¬ s.approx c then st.pathPoints ++ [s] else st.pathPoints
      | _, _ => st.pathPoints
    { st with
      allSubpaths := flushInto st.allSubpaths withStart true st.hasCurves
      pathPoints := []
      hasCurves := false }

/-- Fold the item loop over a command list. -/
def runCmds (ctx : PathCtx) (st : SubpathState) (cmds : List PathCmd) : SubpathState :=
  cmds.foldl (stepCmd ctx) st

/-- The end-of-stream flush of `_extract_drawings`: a remaining subpath
with more than one point is appended, closed when the path's declared
close-flag is set or the last point equals the recorded subpath start
point. -/
def finishSubpaths (closePath : Bool) (st : SubpathState) : List Subpath :=
  flushInto st.allSubpaths st.pathPoints
    (closePath ||
      match st.pathStart with
      | some s => decide ((st.pathPoints.getLastD ⟨0, 0⟩).approx s)
      | none => false)
    st.hasCurves

/-! ### Helper lemmas for the flattener -/

lemma floor_16_mul_15 : ⌊(16 : ℝ) * 1.5⌋₊ = 24 := by
  have h : (16 : ℝ) * 1.5 = ((24 : ℕ) : ℝ) := by norm_num
  rw [h, Nat.floor_natCast]

lemma floor_16_mul_12 : ⌊(16 : ℝ) * 1.2⌋₊ = 19 := by
  rw [Nat.floor_eq_iff (by norm_num)]
  norm_num

lemma floor_12_mul_13 : ⌊(12 : ℝ) * 1.3⌋₊ = 15 := by
  rw [Nat.floor_eq_iff (by norm_num)]
  norm_num

/-- The cubic ratio tier never drops below the positivity threshold. -/
lemma tierCubic_pos (r : ℝ) (base : ℕ) (hb : 1 ≤ base) : 1 ≤ tierCubic r base := by
  have hbR : (1 : ℝ) ≤ (base : ℝ) := by exact_mod_cast hb
  unfold tierCubic
  split
  · refine le_min (by norm_num) (Nat.le_floor ?_)
    push_cast
    nlinarith
  · split
    · refine le_min (by norm_num) (Nat.le_floor ?_)
      push_cast
      nlinarith
    · split
      · refine le_min (by norm_num) (Nat.le_floor ?_)
        push_cast
        nlinarith
      · exact hb

/-- The absolute-size bump only increases the segment count. -/
lemma le_bumpAbs (clen : ℝ) (s : ℕ) : s ≤ bumpAbs clen s := by
  unfold bumpAbs
  split
  · exact le_max_left _ _
  · split
    · exact le_max_left _ _
    · exact le_rfl

/-- The adaptive segment count never drops below 1 (cubic case). -/
lemma adaptSegsCubic_pos (chord clen : ℝ) (base : ℕ) (hb : 1 ≤ base) :
    1 ≤ adaptSegsCubic chord clen base := by
  unfold adaptSegsCubic
  refine le_trans ?_ (le_bumpAbs _ _)
  split
  · exact tierCubic_pos _ _ hb
  · exact hb

/-- The quadratic ratio tier never drops below the positivity
threshold. -/
lemma tierQuad_pos (r : ℝ) (base : ℕ) (hb : 1 ≤ base) : 1 ≤ tierQuad r base := by
  have hbR : (1 : ℝ) ≤ (base : ℝ) := by exact_mod_cast hb
  unfold tierQuad
  split
  · refine le_min (by norm_num) (Nat.le_floor ?_)
    push_cast
    nlinarith
  · split
    · refine le_min (by norm_num) (Nat.le_floor ?_)
      push_cast
      nlinarith
    · exact hb

/-- The adaptive segment count never drops below 1 (quadratic case). -/
lemma adaptSegsQuad_pos (chord clen : ℝ) (base : ℕ) (hb : 1 ≤ base) :
    1 ≤ adaptSegsQuad chord clen base := by
  unfold adaptSegsQuad
  split
  · exact tierQuad_pos _ _ hb
  · exact hb

/-- Number of points produced by the cubic flattener. -/
lemma bezier_to_points_length (p0 p1 p2 p3 : Point) (base : ℕ) (adaptive : Bool) :
    (bezier_to_points p0 p1 p2 p3 base adaptive).length =
      bezierSegs p0 p1 p2 p3 base adaptive + 1 := by
  simp only [bezier_to_points, List.length_map, List.length_range]

/-- Number of points produced by the quadratic flattener. -/
lemma quad_bezier_to_points_length (p0 p1 p2 : Point) (base : ℕ) (adaptive : Bool) :
    (quad_bezier_to_points p0 p1 p2 base adaptive).length =
      quadSegs p0 p1 p2 base adaptive + 1 := by
  simp only [quad_bezier_to_points, List.length_map, List.length_range]

/-- The final cubic segment count is positive when the base is. -/
lemma bezierSegs_pos (p0 p1 p2 p3 : Point) (base : ℕ) (adaptive : Bool) (hb : 1 ≤ base) :
    1 ≤ bezierSegs p0 p1 p2 p3 base adaptive := by
  unfold bezierSegs
  split
  · exact adaptSegsCubic_pos _ _ _ hb
  · exact hb

/-- The final quadratic segment count is positive when the base is. -/
lemma quadSegs_pos (p0 p1 p2 : Point) (base : ℕ) (adaptive : Bool) (hb : 1 ≤ base) :
    1 ≤ quadSegs p0 p1 p2 base adaptive := by
  unfold quadSegs
  split
  · exact adaptSegsQuad_pos _ _ _ hb
  · exact hb

/-- The cubic flattener starts at `p0`. -/
lemma bezier_to_points_head (p0 p1 p2 p3 : Point) (base : ℕ) (adaptive : Bool) :
    (bezier_to_points p0 p1 p2 p3 base adaptive).head? = some p0 := by
  unfold bezier_to_points
  rw [List.range_succ_eq_map]
  simp only [List.map_cons, List.head?_cons]
  congr 1
  ext <;> norm_num

/-- The cubic flattener ends exactly at `p3` (when the segment count is
positive, so that `t = segs / segs = 1`). -/
lemma bezier_to_points_last (p0 p1 p2 p3 : Point) (base : ℕ) (adaptive : Bool)
    (hb : 1 ≤ base) :
    (bezier_to_points p0 p1 p2 p3 base adaptive).getLast? = some p3 := by
  have hne : ((bezierSegs p0 p1 p2 p3 base adaptive : ℝ)) ≠ 0 := by
    exact_mod_cast Nat.one_le_iff_ne_zero.mp (bezierSegs_pos p0 p1 p2 p3 base adaptive hb)
  unfold bezier_to_points
  rw [List.range_succ, List.map_append]
  simp only [List.map_cons, List.map_nil, List.getLast?_concat]
  congr 1
  ext <;> simp only [] <;> rw [div_self hne] <;> norm_num

/-- The quadratic flattener starts at `p0`. -/
lemma quad_bezier_to_points_head (p0 p1 p2 : Point) (base : ℕ) (adaptive : Bool) :
    (quad_bezier_to_points p0 p1 p2 base adaptive).head? = some p0 := by
  unfold quad_bezier_to_points
  rw [List.range_succ_eq_map]
  simp only [List.map_cons, List.head?_cons]
  congr 1
  ext <;> norm_num

/-- The quadratic flattener ends exactly at `p2`. -/
lemma quad_bezier_to_points_last (p0 p1 p2 : Point) (base : ℕ) (adaptive : Bool)
    (hb : 1 ≤ base) :
    (quad_bezier_to_points p0 p1 p2 base adaptive).getLast? = some p2 := by
  have hne : ((quadSegs p0 p1 p2 base adaptive : ℝ)) ≠ 0 := by
    exact_mod_cast Nat.one_le_iff_ne_zero.mp (quadSegs_pos p0 p1 p2 base adaptive hb)
  unfold quad_bezier_to_points
  rw [List.range_succ, List.map_append]
  simp only [List.map_cons, List.map_nil, List.getLast?_concat]
  congr 1
  ext <;> simp only [] <;> rw [div_self hne] <;> norm_num

/-- The cubic ratio tier with the default base 16 is monotone in the
ratio. -/
lemma tierCubic_mono {r1 r2 : ℝ} (h : r1 ≤ r2) : tierCubic r1 16 ≤ tierCubic r2 16 := by
  unfold tierCubic
  push_cast
  rw [floor_16_mul_15, floor_16_mul_12]
  by_cases ha : 1.5 < r1
  · rw [if_pos ha, if_pos (lt_of_lt_of_le ha h)]
    exact min_le_min le_rfl (Nat.floor_le_floor (by nlinarith))
  · rw [if_neg ha]
    by_cases hb : 1.5 < r2
    · rw [if_pos hb]
      have h24 : 24 ≤ ⌊(16 : ℝ) * r2⌋₊ := Nat.le_floor (by push_cast; nlinarith)
      have h64 : (24 : ℕ) ≤ min 64 ⌊(16 : ℝ) * r2⌋₊ := le_min (by norm_num) h24
      split
      · omega
      · split
        · omega
        · omega
    · rw [if_neg hb]
      by_cases hc : 1.2 < r2
      · rw [if_pos hc]
        by_cases hd : 1.2 < r1
        · rw [if_pos hd]
        · rw [if_neg hd]
          split
          · omega
          · omega
      · rw [if_neg hc]
        rw [if_neg fun hx => hc (lt_of_lt_of_le hx h)]
        by_cases he : 1.1 < r2
        · rw [if_pos he]
          split
          · exact le_rfl
          · omega
        · rw [if_neg he, if_neg fun hx => he (lt_of_lt_of_le hx h)]

/-- The quadratic ratio tier with the default base 12 is monotone in the
ratio. -/
lemma tierQuad_mono {r1 r2 : ℝ} (h : r1 ≤ r2) : tierQuad r1 12 ≤ tierQuad r2 12 := by
  unfold tierQuad
  push_cast
  rw [floor_12_mul_13]
  by_cases ha : 1.3 < r1
  · rw [if_pos ha, if_pos (lt_of_lt_of_le ha h)]
    exact min_le_min le_rfl (Nat.floor_le_floor (by nlinarith))
  · rw [if_neg ha]
    by_cases hb : 1.3 < r2
    · rw [if_pos hb]
      have h15 : 15 ≤ ⌊(12 : ℝ) * r2⌋₊ := Nat.le_floor (by push_cast; nlinarith)
      have h32 : (15 : ℕ) ≤ min 32 ⌊(12 : ℝ) * r2⌋₊ := le_min (by norm_num) h15
      split
      · omega
      · omega
    · rw [if_neg hb]
      by_cases hc : 1.1 < r2
      · rw [if_pos hc]
        split
        · exact le_rfl
        · omega
      · rw [if_neg hc, if_neg fun hx => hc (lt_of_lt_of_le hx h)]

/-- The absolute-size bump is monotone in both arguments. -/
lemma bumpAbs_mono {L1 L2 : ℝ} {s t : ℕ} (hL : L1 ≤ L2) (hst : s ≤ t) :
    bumpAbs L1 s ≤ bumpAbs L2 t := by
  unfold bumpAbs
  by_cases h1 : 100 < L1
  · rw [if_pos h1, if_pos (lt_of_lt_of_le h1 hL)]
    exact max_le_max hst le_rfl
  · rw [if_neg h1]
    by_cases h2 : 50 < L1
    · rw [if_pos h2]
      by_cases h3 : 100 < L2
      · rw [if_pos h3]
        exact max_le_max hst (by norm_num)
      · rw [if_neg h3, if_pos (lt_of_lt_of_le h2 hL)]
        exact max_le_max hst le_rfl
    · rw [if_neg h2]
      split
      · exact le_trans hst (le_max_left _ _)
      · split
        · exact le_trans hst (le_max_left _ _)
        · exact hst

/-- With the default cubic base 16 and a fixed chord, the adaptive
segment count is monotone in the control-polygon length. -/
lemma adaptSegsCubic_mono {c L1 L2 : ℝ} (h : L1 ≤ L2) :
    adaptSegsCubic c L1 16 ≤ adaptSegsCubic c L2 16 := by
  unfold adaptSegsCubic
  refine bumpAbs_mono h ?_
  by_cases hc : 0.001 < c
  · rw [if_pos hc, if_pos hc]
    exact tierCubic_mono ((div_le_div_iff_of_pos_right (by linarith)).mpr h)
  · rw [if_neg hc, if_neg hc]

/-- With the default quadratic base 12 and a fixed chord, the adaptive
segment count is monotone in the control-polygon length. -/
lemma adaptSegsQuad_mono {c L1 L2 : ℝ} (h : L1 ≤ L2) :
    adaptSegsQuad c L1 12 ≤ adaptSegsQuad c L2 12 := by
  unfold adaptSegsQuad
  by_cases hc : 0.001 < c
  · rw [if_pos hc, if_pos hc]
    exact tierQuad_mono ((div_le_div_iff_of_pos_right (by linarith)).mpr h)
  · rw [if_neg hc, if_neg hc]

/-- C3: for every cubic control tuple `(p0, p1, p2, p3)` and every
quadratic tuple `(p0, p1, p2)`, including degenerate curves with zero
chord length, the flattener returns a non-empty point list whose first
element equals `p0` and whose last element equals the curve's true
terminal point (`p3`, resp. `p2`) — exactly, hence within 1e-6 — and no
division by zero occurs: the chord divisor is used only under the
`chord > 0.001` guard, and the segment-count divisor is at least 1. -/
theorem claim_C3 :
    (∀ (p0 p1 p2 p3 : Point) (base : ℕ) (adaptive : Bool), 1 ≤ base →
      bezier_to_points p0 p1 p2 p3 base adaptive ≠ [] ∧
      (bezier_to_points p0 p1 p2 p3 base adaptive).head? = some p0 ∧
      (bezier_to_points p0 p1 p2 p3 base adaptive).getLast? = some p3 ∧
      1 ≤ bezierSegs p0 p1 p2 p3 base adaptive) ∧
    (∀ (p0 p1 p2 : Point) (base : ℕ) (adaptive : Bool), 1 ≤ base →
      quad_bezier_to_points p0 p1 p2 base adaptive ≠ [] ∧
      (quad_bezier_to_points p0 p1 p2 base adaptive).head? = some p0 ∧
      (quad_bezier_to_points p0 p1 p2 base adaptive).getLast? = some p2 ∧
      1 ≤ quadSegs p0 p1 p2 base adaptive) := by
  constructor
  · intro p0 p1 p2 p3 base adaptive hb
    refine ⟨?_, bezier_to_points_head p0 p1 p2 p3 base adaptive,
      bezier_to_points_last p0 p1 p2 p3 base adaptive hb,
      bezierSegs_pos p0 p1 p2 p3 base adaptive hb⟩
    intro hnil
    have hlen := bezier_to_points_length p0 p1 p2 p3 base adaptive
    rw [hnil] at hlen
    simp at hlen
  · intro p0 p1 p2 base adaptive hb
    refine ⟨?_, quad_bezier_to_points_head p0 p1 p2 base adaptive,
      quad_bezier_to_points_last p0 p1 p2 base adaptive hb,
      quadSegs_pos p0 p1 p2 base adaptive hb⟩
    intro hnil
    have hlen := quad_bezier_to_points_length p0 p1 p2 base adaptive
    rw [hnil] at hlen
    simp at hlen

/-- Witness for C3: the degenerate zero-chord cubic at the origin and a
small quadratic, at the default base counts. -/
theorem claim_C3_witness :
    ((1 : ℕ) ≤ 16 ∧
      (bezier_to_points ⟨0, 0⟩ ⟨0, 0⟩ ⟨0, 0⟩ ⟨0, 0⟩ 16 true ≠ [] ∧
       (bezier_to_points ⟨0, 0⟩ ⟨0, 0⟩ ⟨0, 0⟩ ⟨0, 0⟩ 16 true).head? = some ⟨0, 0⟩ ∧
       (bezier_to_points ⟨0, 0⟩ ⟨0, 0⟩ ⟨0, 0⟩ ⟨0, 0⟩ 16 true).getLast? = some ⟨0, 0⟩ ∧
       1 ≤ bezierSegs ⟨0, 0⟩ ⟨0, 0⟩ ⟨0, 0⟩ ⟨0, 0⟩ 16 true)) ∧
    ((1 : ℕ) ≤ 12 ∧
      (quad_bezier_to_points ⟨0, 0⟩ ⟨1, 1⟩ ⟨2, 0⟩ 12 true ≠ [] ∧
       (quad_bezier_to_points ⟨0, 0⟩ ⟨1, 1⟩ ⟨2, 0⟩ 12 true).head? = some ⟨0, 0⟩ ∧
       (quad_bezier_to_points ⟨0, 0⟩ ⟨1, 1⟩ ⟨2, 0⟩ 12 true).getLast? = some ⟨2, 0⟩ ∧
       1 ≤ quadSegs ⟨0, 0⟩ ⟨1, 1⟩ ⟨2, 0⟩ 12 true)) :=
  ⟨⟨by norm_num, claim_C3.1 ⟨0, 0⟩ ⟨0, 0⟩ ⟨0, 0⟩ ⟨0, 0⟩ 16 true (by norm_num)⟩,
   ⟨by norm_num, claim_C3.2 ⟨0, 0⟩ ⟨1, 1⟩ ⟨2, 0⟩ 12 true (by norm_num)⟩⟩

/-- C4: for two cubic (or two quadratic) curves flattened at the default
base segment count with equal chord lengths and ordered control-polygon
lengths, the output point count is non-decreasing. -/
theorem claim_C4 :
    (∀ p0 p1 p2 p3 q0 q1 q2 q3 : Point,
      chordCubic p0 p3 = chordCubic q0 q3 →
      controlLenCubic p0 p1 p2 p3 ≤ controlLenCubic q0 q1 q2 q3 →
      (bezier_to_points p0 p1 p2 p3 16 true).length ≤
        (bezier_to_points q0 q1 q2 q3 16 true).length) ∧
    (∀ p0 p1 p2 q0 q1 q2 : Point,
      p0.distance_to p2 = q0.distance_to q2 →
      controlLenQuad p0 p1 p2 ≤ controlLenQuad q0 q1 q2 →
      (quad_bezier_to_points p0 p1 p2 12 true).length ≤
        (quad_bezier_to_points q0 q1 q2 12 true).length) := by
  constructor
  · intro p0 p1 p2 p3 q0 q1 q2 q3 hchord hctl
    rw [bezier_to_points_length, bezier_to_points_length]
    have hsegs : bezierSegs p0 p1 p2 p3 16 true ≤ bezierSegs q0 q1 q2 q3 16 true := by
      unfold bezierSegs
      rw [if_pos rfl, if_pos rfl, hchord]
      exact adaptSegsCubic_mono hctl
    omega
  · intro p0 p1 p2 q0 q1 q2 hchord hctl
    rw [quad_bezier_to_points_length, quad_bezier_to_points_length]
    have hsegs : quadSegs p0 p1 p2 12 true ≤ quadSegs q0 q1 q2 12 true := by
      unfold quadSegs
      rw [if_pos rfl, if_pos rfl, hchord]
      exact adaptSegsQuad_mono hctl
    omega

/-- Witness for C4: a straight cubic against a bulging cubic over the
same chord from `(0,0)` to `(3,0)`, and similarly for quadratics over
the chord from `(0,0)` to `(2,0)`. -/
theorem claim_C4_witness :
    (chordCubic ⟨0, 0⟩ ⟨3, 0⟩ = chordCubic ⟨0, 0⟩ ⟨3, 0⟩ ∧
     controlLenCubic ⟨0, 0⟩ ⟨1, 0⟩ ⟨2, 0⟩ ⟨3, 0⟩ ≤ controlLenCubic ⟨0, 0⟩ ⟨0, 2⟩ ⟨3, 2⟩ ⟨3, 0⟩ ∧
     (bezier_to_points ⟨0, 0⟩ ⟨1, 0⟩ ⟨2, 0⟩ ⟨3, 0⟩ 16 true).length ≤
       (bezier_to_points ⟨0, 0⟩ ⟨0, 2⟩ ⟨3, 2⟩ ⟨3, 0⟩ 16 true).length) ∧
    (Point.distance_to ⟨0, 0⟩ ⟨2, 0⟩ = Point.distance_to ⟨0, 0⟩ ⟨2, 0⟩ ∧
     controlLenQuad ⟨0, 0⟩ ⟨1, 0⟩ ⟨2, 0⟩ ≤ controlLenQuad ⟨0, 0⟩ ⟨2, 1.5⟩ ⟨2, 0⟩ ∧
     (quad_bezier_to_points ⟨0, 0⟩ ⟨1, 0⟩ ⟨2, 0⟩ 12 true).length ≤
       (quad_bezier_to_points ⟨0, 0⟩ ⟨2, 1.5⟩ ⟨2, 0⟩ 12 true).length) := by
  have h1 : Real.sqrt 1 = 1 := Real.sqrt_one
  have h4 : Real.sqrt 4 = 2 := by
    rw [show (4 : ℝ) = 2 ^ 2 by norm_num, Real.sqrt_sq (by norm_num)]
  have h9 : Real.sqrt 9 = 3 := by
    rw [show (9 : ℝ) = 3 ^ 2 by norm_num, Real.sqrt_sq (by norm_num)]
  have h25 : Real.sqrt 25 = 5 := by
    rw [show (25 : ℝ) = 5 ^ 2 by norm_num, Real.sqrt_sq (by norm_num)]
  have hcub : controlLenCubic ⟨0, 0⟩ ⟨1, 0⟩ ⟨2, 0⟩ ⟨3, 0⟩ ≤
      controlLenCubic ⟨0, 0⟩ ⟨0, 2⟩ ⟨3, 2⟩ ⟨3, 0⟩ := by
    unfold controlLenCubic Point.distance_to
    norm_num [h1, h4, h9]
  have hquad : controlLenQuad ⟨0, 0⟩ ⟨1, 0⟩ ⟨2, 0⟩ ≤
      controlLenQuad ⟨0, 0⟩ ⟨2, 1.5⟩ ⟨2, 0⟩ := by
    unfold controlLenQuad Point.distance_to
    norm_num [h1, h4, h9, h25]
  exact ⟨⟨rfl, hcub, claim_C4.1 _ _ _ _ _ _ _ _ rfl hcub⟩,
         ⟨rfl, hquad, claim_C4.2 _ _ _ _ _ _ rfl hquad⟩⟩

/-! ### Helper lemmas for the classifier -/

/-- Membership after one scan step. -/
lemma mem_addDistinct {tol v u : ℝ} {acc : List ℝ} (h : u ∈ addDistinct tol acc v) :
    u ∈ acc ∨ u = v := by
  unfold addDistinct at h
  split at h
  · exact Or.inl h
  · rcases List.mem_append.mp h with h1 | h2
    · exact Or.inl h1
    · exact Or.inr (List.mem_singleton.mp h2)

/-- Every accepted distinct value comes from the scanned list (or the
initial accumulator). -/
lemma mem_foldl_addDistinct {tol u : ℝ} :
    ∀ {vals acc : List ℝ}, u ∈ vals.foldl (addDistinct tol) acc → u ∈ acc ∨ u ∈ vals := by
  intro vals
  induction vals with
  | nil => intro acc h; exact Or.inl h
  | cons v vs ih =>
    intro acc h
    rw [List.foldl_cons] at h
    rcases ih h with h1 | h2
    · rcases mem_addDistinct h1 with h3 | h4
      · exact Or.inl h3
      · exact Or.inr (h4 ▸ List.mem_cons_self v vs)
    · exact Or.inr (List.mem_cons_of_mem v h2)

lemma distinctVals_subset {tol u : ℝ} {vals : List ℝ} (h : u ∈ distinctVals tol vals) :
    u ∈ vals := by
  rcases mem_foldl_addDistinct h with h1 | h2
  · simp at h1
  · exact h2

/-- A value is only accepted when it is at least the tolerance away from
every previously accepted value, so accepted values are pairwise
separated. -/
lemma pairwise_addDistinct {tol v : ℝ} {acc : List ℝ}
    (h : acc.Pairwise fun a b => tol ≤ |a - b|) :
    (addDistinct tol acc v).Pairwise fun a b => tol ≤ |a - b| := by
  unfold addDistinct
  split
  · exact h
  · rename_i hnone
    rw [List.pairwise_append]
    refine ⟨h, List.pairwise_singleton _ _, ?_⟩
    intro a ha b hb
    rw [List.mem_singleton.mp hb]
    have : ¬ |v - a| < tol := fun hlt => hnone ⟨a, ha, hlt⟩
    rw [abs_sub_comm] at this
    linarith [not_lt.mp this]

lemma pairwise_foldl_addDistinct {tol : ℝ} :
    ∀ {vals acc : List ℝ}, (acc.Pairwise fun a b => tol ≤ |a - b|) →
      (vals.foldl (addDistinct tol) acc).Pairwise fun a b => tol ≤ |a - b| := by
  intro vals
  induction vals with
  | nil => intro acc h; exact h
  | cons v vs ih => intro acc h; exact ih (pairwise_addDistinct h)

lemma distinctVals_pairwise (tol : ℝ) (vals : List ℝ) :
    (distinctVals tol vals).Pairwise fun a b => tol ≤ |a - b| :=
  pairwise_foldl_addDistinct (List.Pairwise.nil)

/-- When the scan accepts exactly two values, the original list holds
two values at least the tolerance apart. -/
lemma distinctVals_two {tol : ℝ} {vals : List ℝ}
    (h : (distinctVals tol vals).length = 2) :
    ∃ a ∈ vals, ∃ b ∈ vals, tol ≤ |a - b| := by
  rcases List.length_eq_two.mp h with ⟨a, b, hab⟩
  have hpw := distinctVals_pairwise tol vals
  rw [hab] at hpw
  have hR : tol ≤ |a - b| := by
    have := List.pairwise_cons.mp hpw
    exact this.1 b (List.mem_singleton.mpr rfl)
  have hamem : a ∈ distinctVals tol vals := by rw [hab]; simp
  have hbmem : b ∈ distinctVals tol vals := by rw [hab]; simp
  exact ⟨a, distinctVals_subset hamem, b, distinctVals_subset hbmem, hR⟩

lemma foldl_min_le_init (l : List ℝ) : ∀ x : ℝ, l.foldl min x ≤ x := by
  induction l with
  | nil => intro x; exact le_rfl
  | cons v vs ih => intro x; exact le_trans (ih (min x v)) (min_le_left x v)

lemma listMin_le_of_mem {a : ℝ} {l : List ℝ} (h : a ∈ l) : listMin l ≤ a := by
  match l with
  | v :: vs =>
    show vs.foldl min v ≤ a
    rcases List.mem_cons.mp h with h1 | h2
    · exact h1 ▸ foldl_min_le_init vs v
    · clear h
      induction vs generalizing v with
      | nil => simp at h2
      | cons w ws ih =>
        rcases List.mem_cons.mp h2 with h3 | h4
        · subst h3
          exact le_trans (foldl_min_le_init ws (min v a)) (min_le_right v a)
        · exact ih (min v w) h4

lemma init_le_foldl_max (l : List ℝ) : ∀ x : ℝ, x ≤ l.foldl max x := by
  induction l with
  | nil => intro x; exact le_rfl
  | cons v vs ih => intro x; exact le_trans (le_max_left x v) (ih (max x v))

lemma le_listMax_of_mem {a : ℝ} {l : List ℝ} (h : a ∈ l) : a ≤ listMax l := by
  match l with
  | v :: vs =>
    show a ≤ vs.foldl max v
    rcases List.mem_cons.mp h with h1 | h2
    · exact h1 ▸ init_le_foldl_max vs v
    · clear h
      induction vs generalizing v with
      | nil => simp at h2
      | cons w ws ih =>
        rcases List.mem_cons.mp h2 with h3 | h4
        · subst h3
          exact le_trans (le_max_right v a) (init_le_foldl_max ws (max v a))
        · exact ih (max v w) h4

/-- When the linear scan finds exactly two distinct values, the spread of
the list is at least the tolerance. -/
lemma listMax_sub_listMin_of_two {tol : ℝ} {vals : List ℝ}
    (h : (distinctVals tol vals).length = 2) : tol ≤ listMax vals - listMin vals := by
  rcases distinctVals_two h with ⟨a, ha, b, hb, hab⟩
  have h1 := listMin_le_of_mem ha
  have h2 := listMin_le_of_mem hb
  have h3 := le_listMax_of_mem ha
  have h4 := le_listMax_of_mem hb
  rcases abs_cases (a - b) with ⟨he, _⟩ | ⟨he, _⟩ <;> rw [he] at hab <;> linarith

/-- Two points always classify as a `Line` with those endpoints. -/
lemma savePath_line (a b : Point) (closed : Bool) (color : RGB) (width : ℝ)
    (lt : LineType) (fill : Option RGB) :
    savePathEntity [a, b] closed color width lt fill =
      .line ⟨a, b, color, width, "0", lt⟩ := by
  unfold savePathEntity
  simp

/-- The rectangle rule of the classifier, in terms of the distinct-value
scan and the coordinate extremes of the first four points. -/
lemma savePath_rect_rule (pts : List Point) (color : RGB) (width : ℝ)
    (lt : LineType) (fill : Option RGB) (hlen : 4 ≤ pts.length)
    (hx : (distinctVals 0.5 ((pts.take 4).map Point.x)).length = 2)
    (hy : (distinctVals 0.5 ((pts.take 4).map Point.y)).length = 2) :
    savePathEntity pts true color width lt fill =
      .rect ⟨⟨listMin ((pts.take 4).map Point.x), listMin ((pts.take 4).map Point.y)⟩,
             listMax ((pts.take 4).map Point.x) - listMin ((pts.take 4).map Point.x),
             listMax ((pts.take 4).map Point.y) - listMin ((pts.take 4).map Point.y),
             color, width, "0", lt, fill⟩ := by
  unfold savePathEntity
  rw [if_neg (by omega), if_pos ⟨hlen, rfl, hlen, hx, hy⟩]

/-- The fallback rule of the classifier. -/
lemma savePath_poly_rule (pts : List Point) (closed : Bool) (color : RGB) (width : ℝ)
    (lt : LineType) (fill : Option RGB) (h2 : pts.length ≠ 2)
    (hrect : ¬ (4 ≤ pts.length ∧ closed = true ∧ isRectangle pts)) :
    savePathEntity pts closed color width lt fill =
      .poly ⟨pts, closed, color, width, "0", lt⟩ := by
  unfold savePathEntity
  rw [if_neg h2, if_neg hrect]

/-- Concrete evaluation: the axis-aligned 10 by 5 rectangle example. -/
lemma savePath_rect_example (color : RGB) (width : ℝ) (lt : LineType) (fill : Option RGB) :
    savePathEntity [⟨0, 0⟩, ⟨10, 0⟩, ⟨10, 5⟩, ⟨0, 5⟩] true color width lt fill =
      .rect ⟨⟨0, 0⟩, 10, 5, color, width, "0", lt, fill⟩ := by
  have hx : distinctVals 0.5 ((([⟨0, 0⟩, ⟨10, 0⟩, ⟨10, 5⟩, ⟨0, 5⟩] : List Point).take 4).map
      Point.x) = [0, 10] := by
    unfold distinctVals addDistinct
    norm_num [abs_lt]
  have hy : distinctVals 0.5 ((([⟨0, 0⟩, ⟨10, 0⟩, ⟨10, 5⟩, ⟨0, 5⟩] : List Point).take 4).map
      Point.y) = [0, 5] := by
    unfold distinctVals addDistinct
    norm_num [abs_lt]
  have h := savePath_rect_rule [⟨0, 0⟩, ⟨10, 0⟩, ⟨10, 5⟩, ⟨0, 5⟩] color width lt fill
    (by norm_num) (by rw [hx]; rfl) (by rw [hy]; rfl)
  rw [h]
  unfold listMin listMax
  norm_num [min_def, max_def]

/-- Concrete evaluation: three points classify as a polyline. -/
lemma savePath_poly_example (color : RGB) (width : ℝ) (lt : LineType) (fill : Option RGB) :
    savePathEntity [⟨0, 0⟩, ⟨1, 0⟩, ⟨2, 5⟩] false color width lt fill =
      .poly ⟨[⟨0, 0⟩, ⟨1, 0⟩, ⟨2, 5⟩], false, color, width, "0", lt⟩ := by
  apply savePath_poly_rule
  · norm_num
  · intro h
    simp at h

/-- C5: for every finished subpath the classifier produces exactly one
entity, chosen by the first matching rule: exactly 2 points give a Line
with those endpoints; at least 4 points, closed, whose first 4 points
reduce (within 0.5, by linear scan against already-accepted values) to
exactly 2 distinct x-values and 2 distinct y-values give a Rectangle
with corner (min x, min y) and extents max minus min; anything else
gives a Polyline retaining the closed flag.  In particular the closed
points (0,0), (10,0), (10,5), (0,5) give a Rectangle with corner (0,0),
width 10, height 5. -/
theorem claim_C5 :
    (∀ (a b : Point) (closed : Bool) (color : RGB) (width : ℝ) (lt : LineType)
       (fill : Option RGB),
      savePathEntity [a, b] closed color width lt fill =
        .line ⟨a, b, color, width, "0", lt⟩) ∧
    (∀ (pts : List Point) (color : RGB) (width : ℝ) (lt : LineType) (fill : Option RGB),
      4 ≤ pts.length →
      (distinctVals 0.5 ((pts.take 4).map Point.x)).length = 2 →
      (distinctVals 0.5 ((pts.take 4).map Point.y)).length = 2 →
      savePathEntity pts true color width lt fill =
        .rect ⟨⟨listMin ((pts.take 4).map Point.x), listMin ((pts.take 4).map Point.y)⟩,
               listMax ((pts.take 4).map Point.x) - listMin ((pts.take 4).map Point.x),
               listMax ((pts.take 4).map Point.y) - listMin ((pts.take 4).map Point.y),
               color, width, "0", lt, fill⟩) ∧
    (∀ (pts : List Point) (closed : Bool) (color : RGB) (width : ℝ) (lt : LineType)
       (fill : Option RGB),
      pts.length ≠ 2 →
      ¬ (4 ≤ pts.length ∧ closed = true ∧ isRectangle pts) →
      savePathEntity pts closed color width lt fill =
        .poly ⟨pts, closed, color, width, "0", lt⟩) ∧
    (∀ (color : RGB) (width : ℝ) (lt : LineType) (fill : Option RGB),
      savePathEntity [⟨0, 0⟩, ⟨10, 0⟩, ⟨10, 5⟩, ⟨0, 5⟩] true color width lt fill =
        .rect ⟨⟨0, 0⟩, 10, 5, color, width, "0", lt, fill⟩) :=
  ⟨savePath_line, savePath_rect_rule, savePath_poly_rule, savePath_rect_example⟩

/-- Witness for C5: the rectangle rule applied to the concrete
rectangle example, with its hypotheses discharged there. -/
theorem claim_C5_witness :
    (4 ≤ ([⟨0, 0⟩, ⟨10, 0⟩, ⟨10, 5⟩, ⟨0, 5⟩] : List Point).length ∧
     (distinctVals 0.5 ((([⟨0, 0⟩, ⟨10, 0⟩, ⟨10, 5⟩, ⟨0, 5⟩] : List Point).take 4).map
        Point.x)).length = 2 ∧
     (distinctVals 0.5 ((([⟨0, 0⟩, ⟨10, 0⟩, ⟨10, 5⟩, ⟨0, 5⟩] : List Point).take 4).map
        Point.y)).length = 2) ∧
    (([⟨0, 0⟩, ⟨1, 0⟩, ⟨2, 5⟩] : List Point).length ≠ 2 ∧
     savePathEntity [⟨0, 0⟩, ⟨1, 0⟩, ⟨2, 5⟩] false (0, 0, 0) 1 .continuous none =
       .poly ⟨[⟨0, 0⟩, ⟨1, 0⟩, ⟨2, 5⟩], false, (0, 0, 0), 1, "0", .continuous⟩) := by
  have hx : distinctVals 0.5 ((([⟨0, 0⟩, ⟨10, 0⟩, ⟨10, 5⟩, ⟨0, 5⟩] : List Point).take 4).map
      Point.x) = [0, 10] := by
    unfold distinctVals addDistinct
    norm_num [abs_lt]
  have hy : distinctVals 0.5 ((([⟨0, 0⟩, ⟨10, 0⟩, ⟨10, 5⟩, ⟨0, 5⟩] : List Point).take 4).map
      Point.y) = [0, 5] := by
    unfold distinctVals addDistinct
    norm_num [abs_lt]
  refine ⟨⟨by norm_num, by rw [hx]; rfl, by rw [hy]; rfl⟩, ⟨by norm_num, ?_⟩⟩
  exact claim_C5.2.2.1 [⟨0, 0⟩, ⟨1, 0⟩, ⟨2, 5⟩] false (0, 0, 0) 1 .continuous none
    (by norm_num) (by intro h; simp at h)

/-! ### Subpath length invariant -/

/-- The guarded flush only ever appends subpaths with at least 2
points. -/
lemma flushInto_ge2 {sps : List Subpath} {pts : List Point} {c hc : Bool}
    (h : ∀ sp ∈ sps, 2 ≤ sp.points.length) :
    ∀ sp ∈ flushInto sps pts c hc, 2 ≤ sp.points.length := by
  intro sp hsp
  unfold flushInto at hsp
  split at hsp
  · rename_i hlen
    rcases List.mem_append.mp hsp with h1 | h2
    · exact h _ h1
    · rw [List.mem_singleton.mp h2]
      show 2 ≤ pts.length
      omega
  · exact h _ hsp

/-- Every loop step preserves the two-point lower bound on collected
subpaths. -/
lemma stepCmd_ge2 (ctx : PathCtx) (st : SubpathState) (cmd : PathCmd)
    (h : ∀ sp ∈ st.allSubpaths, 2 ≤ sp.points.length) :
    ∀ sp ∈ (stepCmd ctx st cmd).allSubpaths, 2 ≤ sp.points.length := by
  cases cmd with
  | move p => exact flushInto_ge2 h
  | lineSeg s e =>
    simp only [stepCmd]
    split
    · exact h
    · split
      · exact flushInto_ge2 h
      · exact h
  | cubic c1 c2 e => cases st.currentPoint <;> exact h
  | cubicV c2 e => cases hcur : st.currentPoint <;> simp only [stepCmd, hcur] <;> exact h
  | cubicY c1 e => cases hcur : st.currentPoint <;> simp only [stepCmd, hcur] <;> exact h
  | quad c e => cases hcur : st.currentPoint <;> simp only [stepCmd, hcur] <;> exact h
  | rect x0 y0 x1 y1 => exact h
  | close => exact flushInto_ge2 h

/-- The whole command fold preserves the bound. -/
lemma runCmds_ge2 (ctx : PathCtx) :
    ∀ (cmds : List PathCmd) (st : SubpathState),
      (∀ sp ∈ st.allSubpaths, 2 ≤ sp.points.length) →
      ∀ sp ∈ (runCmds ctx st cmds).allSubpaths, 2 ≤ sp.points.length := by
  intro cmds
  induction cmds with
  | nil => intro st h; exact h
  | cons cmd rest ih =>
    intro st h
    exact ih (stepCmd ctx st cmd) (stepCmd_ge2 ctx st cmd h)

/-- C8 fails as stated: a degenerate `re` item (here the zero-width rect
`(0, 0, 0, 1)`) is stored unconditionally, producing a Rectangle of
width 0 in the rectangle collection. -/
theorem claim_C8_counterexample :
    (stepCmd ⟨(0, 0, 0), 1, .continuous, none, 1, 100⟩ initState (.rect 0 0 0 1)).rects =
      [rectFromRe 0 0 0 1 ⟨(0, 0, 0), 1, .continuous, none, 1, 100⟩] ∧
    (rectFromRe 0 0 0 1 ⟨(0, 0, 0), 1, .continuous, none, 1, 100⟩).width = 0 := by
  constructor
  · simp [stepCmd, initState]
  · unfold rectFromRe
    norm_num

/-- C8 amended: every Rectangle produced by rectangle classification of
a closed subpath has width > 0 and height > 0; a Rectangle stored from a
RectTo (`re`) command has positive extents whenever the source rect is
non-degenerate (`x0 < x1`, `y0 < y1`) and the scale is positive
(degenerate rects are stored with zero extent); every Polyline stored
keeps the subpath's points, and every subpath handed on by the
reconstructor has at least 2 points. -/
theorem claim_C8_amended :
    (∀ (pts : List Point) (closed : Bool) (color : RGB) (width : ℝ) (lt : LineType)
       (fill : Option RGB) (r : Rectangle),
      savePathEntity pts closed color width lt fill = .rect r →
      0 < r.width ∧ 0 < r.height) ∧
    (∀ (x0 y0 x1 y1 : ℝ) (ctx : PathCtx) (st : SubpathState),
      (stepCmd ctx st (.rect x0 y0 x1 y1)).rects = st.rects ++ [rectFromRe x0 y0 x1 y1 ctx]) ∧
    (∀ (x0 y0 x1 y1 : ℝ) (ctx : PathCtx),
      x0 < x1 → y0 < y1 → 0 < ctx.scale →
      0 < (rectFromRe x0 y0 x1 y1 ctx).width ∧ 0 < (rectFromRe x0 y0 x1 y1 ctx).height) ∧
    (∀ (pts : List Point) (closed : Bool) (color : RGB) (width : ℝ) (lt : LineType)
       (fill : Option RGB) (p : Polyline),
      savePathEntity pts closed color width lt fill = .poly p → p.points = pts) ∧
    (∀ (ctx : PathCtx) (cmds : List PathCmd) (flag : Bool),
      ∀ sp ∈ finishSubpaths flag (runCmds ctx initState cmds), 2 ≤ sp.points.length) := by
  refine ⟨?_, ?_, ?_, ?_, ?_⟩
  · intro pts closed color width lt fill r hr
    unfold savePathEntity at hr
    split at hr
    · simp at hr
    · split at hr
      · rename_i hcond
        obtain ⟨hlen, hclosed, hlen4, hx2, hy2⟩ := hcond
        have hwx := listMax_sub_listMin_of_two hx2
        have hwy := listMax_sub_listMin_of_two hy2
        simp only [PathEntity.rect.injEq] at hr
        rw [← hr]
        constructor <;> [skip; skip] <;> simp only [] <;> linarith
      · simp at hr
  · intro x0 y0 x1 y1 ctx st
    simp only [stepCmd]
  · intro x0 y0 x1 y1 ctx h1 h2 h3
    unfold rectFromRe
    constructor <;> simp only [] <;> nlinarith
  · intro pts closed color width lt fill p hp
    unfold savePathEntity at hp
    split at hp
    · simp at hp
    · split at hp
      · simp at hp
      · simp only [PathEntity.poly.injEq] at hp
        rw [← hp]
  · intro ctx cmds flag
    exact flushInto_ge2 (runCmds_ge2 ctx cmds initState (by intro sp hsp; simp [initState] at hsp))

/-- Witness for C8 amended: the classifier-rectangle part at the
concrete 10 by 5 example, the RectTo part at a non-degenerate rect, the
polyline part at a 3-point subpath, and the reconstructor part at a
2-command stream. -/
theorem claim_C8_witness :
    (savePathEntity [⟨0, 0⟩, ⟨10, 0⟩, ⟨10, 5⟩, ⟨0, 5⟩] true (0, 0, 0) 1 .continuous none =
       .rect ⟨⟨0, 0⟩, 10, 5, (0, 0, 0), 1, "0", .continuous, none⟩ ∧
     0 < Rectangle.width ⟨⟨0, 0⟩, 10, 5, (0, 0, 0), 1, "0", .continuous, none⟩ ∧
     0 < Rectangle.height ⟨⟨0, 0⟩, 10, 5, (0, 0, 0), 1, "0", .continuous, none⟩) ∧
    ((0 : ℝ) < 2 ∧ (0 : ℝ) < 3 ∧
     0 < PathCtx.scale ⟨(0, 0, 0), 1, .continuous, none, 1, 100⟩ ∧
     0 < (rectFromRe 0 0 2 3 ⟨(0, 0, 0), 1, .continuous, none, 1, 100⟩).width ∧
     0 < (rectFromRe 0 0 2 3 ⟨(0, 0, 0), 1, .continuous, none, 1, 100⟩).height) ∧
    (savePathEntity [⟨0, 0⟩, ⟨1, 0⟩, ⟨2, 5⟩] false (0, 0, 0) 1 .continuous none =
       .poly ⟨[⟨0, 0⟩, ⟨1, 0⟩, ⟨2, 5⟩], false, (0, 0, 0), 1, "0", .continuous⟩ ∧
     Polyline.points ⟨[⟨0, 0⟩, ⟨1, 0⟩, ⟨2, 5⟩], false, (0, 0, 0), 1, "0", .continuous⟩ =
       [⟨0, 0⟩, ⟨1, 0⟩, ⟨2, 5⟩]) ∧
    ((⟨[⟨0, 0⟩, ⟨1, 0⟩], true, false⟩ : Subpath) ∈
       finishSubpaths true (runCmds ⟨(0, 0, 0), 1, .continuous, none, 1, 100⟩ initState
         [.move ⟨0, 0⟩, .lineSeg ⟨0, 0⟩ ⟨1, 0⟩]) ∧
     2 ≤ (Subpath.points (⟨[⟨0, 0⟩, ⟨1, 0⟩], true, false⟩ : Subpath)).length) := by
  have hrect := savePath_rect_example (0, 0, 0) 1 .continuous none
  have hpoly := savePath_poly_example (0, 0, 0) 1 .continuous none
  have hrun : runCmds ⟨(0, 0, 0), 1, .continuous, none, 1, 100⟩ initState
      [.move ⟨0, 0⟩, .lineSeg ⟨0, 0⟩ ⟨1, 0⟩] =
      ⟨[], some ⟨1, 0⟩, [⟨0, 0⟩, ⟨1, 0⟩], some ⟨0, 0⟩, false, [], []⟩ := by
    unfold runCmds
    simp only [List.foldl_cons, List.foldl_nil]
    norm_num [stepCmd, flushInto, initState, Point.approx, Option.some_ne_none]
  have hmem : (⟨[⟨0, 0⟩, ⟨1, 0⟩], true, false⟩ : Subpath) ∈
      finishSubpaths true (runCmds ⟨(0, 0, 0), 1, .continuous, none, 1, 100⟩ initState
        [.move ⟨0, 0⟩, .lineSeg ⟨0, 0⟩ ⟨1, 0⟩]) := by
    rw [hrun]
    simp [finishSubpaths, flushInto]
  refine ⟨⟨hrect, claim_C8_amended.1 _ _ _ _ _ _ _ hrect⟩,
          ⟨by norm_num, by norm_num, by norm_num, ?_⟩,
          ⟨hpoly, claim_C8_amended.2.2.2.1 _ _ _ _ _ _ _ hpoly⟩,
          ⟨hmem, claim_C8_amended.2.2.2.2 _ _ _ _ hmem⟩⟩
  exact claim_C8_amended.2.2.1 0 0 2 3 _ (by norm_num) (by norm_num) (by norm_num)

/-! ### Point hashing (claim C9) -/

/-- Equal rounded values put the originals within 1e-6 of each other
(inclusive). -/
lemma round6_close {a b : ℝ} (h : round6 a = round6 b) : |a - b| ≤ 1e-6 := by
  unfold round6 at h
  have hz : (round (a * 1000000) : ℝ) = (round (b * 1000000) : ℝ) := by
    field_simp at h
    exact_mod_cast h
  have ha := abs_sub_round (a * 1000000)
  have hb := abs_sub_round (b * 1000000)
  rw [hz] at ha
  have htri := abs_sub_le (a * 1000000) ((round (b * 1000000) : ℤ) : ℝ) (b * 1000000)
  have hb2 : |((round (b * 1000000) : ℤ) : ℝ) - b * 1000000| ≤ 1 / 2 := by
    rw [abs_sub_comm]
    exact hb
  have h2 : |a * 1000000 - b * 1000000| ≤ 1 := by linarith
  have h3 : |a - b| * 1000000 = |a * 1000000 - b * 1000000| := by
    rw [show a * 1000000 - b * 1000000 = (a - b) * 1000000 by ring, abs_mul]
    norm_num
  nlinarith [abs_nonneg (a - b)]

/-- C9 fails as stated: the points `(2^-22, 0)` and `(2^-20, 0)` are
equal under the 1e-6 tolerance (their coordinates differ by
`3 * 2^-22 < 1e-6`), but they round to different 6-decimal values
(0 and 1e-6), so their hash keys differ. -/
theorem claim_C9_counterexample :
    Point.approx ⟨1 / 4194304, 0⟩ ⟨1 / 1048576, 0⟩ ∧
    pointHashKey ⟨1 / 4194304, 0⟩ ≠ pointHashKey ⟨1 / 1048576, 0⟩ := by
  have h1 : round ((1 / 4194304 : ℝ) * 1000000) = 0 := by
    rw [round_eq, show (1 / 4194304 : ℝ) * 1000000 + 1 / 2 = 48393 / 65536 by norm_num,
        Int.floor_eq_iff]
    norm_num
  have h2 : round ((1 / 1048576 : ℝ) * 1000000) = 1 := by
    rw [round_eq, show (1 / 1048576 : ℝ) * 1000000 + 1 / 2 = 23817 / 16384 by norm_num,
        Int.floor_eq_iff]
    norm_num
  constructor
  · constructor <;> simp only [] <;> rw [abs_lt] <;> norm_num
  · unfold pointHashKey round6
    intro heq
    have hfst := congrArg Prod.fst heq
    simp only [] at hfst
    rw [h1, h2] at hfst
    norm_num at hfst

/-- C9 amended: hashing is consistent with rounded equality, not with
the 1e-6 tolerance equality: if two points' coordinates agree after
rounding to 6 decimals then their hash keys are equal and the
coordinates are within 1e-6 of each other (inclusively); the strict
tolerance equality of `__eq__` does not imply equal hashes. -/
theorem claim_C9_amended :
    ∀ p q : Point, round6 p.x = round6 q.x → round6 p.y = round6 q.y →
      pointHashKey p = pointHashKey q ∧ |p.x - q.x| ≤ 1e-6 ∧ |p.y - q.y| ≤ 1e-6 := by
  intro p q hx hy
  refine ⟨?_, round6_close hx, round6_close hy⟩
  unfold pointHashKey
  rw [hx, hy]

/-- Witness for C9 amended at the points `(2e-7, 0)` and `(0, 0)`,
which round to the same 6-decimal coordinates. -/
theorem claim_C9_witness :
    round6 (Point.x ⟨2 / 10000000, 0⟩) = round6 (Point.x ⟨0, 0⟩) ∧
    round6 (Point.y ⟨2 / 10000000, 0⟩) = round6 (Point.y ⟨0, 0⟩) ∧
    (pointHashKey ⟨2 / 10000000, 0⟩ = pointHashKey ⟨0, 0⟩ ∧
     |Point.x ⟨2 / 10000000, 0⟩ - Point.x ⟨0, 0⟩| ≤ 1e-6 ∧
     |Point.y ⟨2 / 10000000, 0⟩ - Point.y ⟨0, 0⟩| ≤ 1e-6) := by
  have hx : round6 (Point.x ⟨2 / 10000000, 0⟩) = round6 (Point.x ⟨0, 0⟩) := by
    unfold round6
    rw [show Point.x ⟨2 / 10000000, 0⟩ * 1000000 = (1 / 5 : ℝ) by norm_num,
        show Point.x ⟨0, 0⟩ * 1000000 = (0 : ℝ) by norm_num]
    rw [round_eq, round_eq, show (1 / 5 : ℝ) + 1 / 2 = 7 / 10 by norm_num,
        show (0 : ℝ) + 1 / 2 = 1 / 2 by norm_num]
    rw [show ⌊(7 / 10 : ℝ)⌋ = 0 by rw [Int.floor_eq_iff] <;> norm_num,
        show ⌊(1 / 2 : ℝ)⌋ = 0 by rw [Int.floor_eq_iff] <;> norm_num]
  have hy : round6 (Point.y ⟨2 / 10000000, 0⟩) = round6 (Point.y ⟨0, 0⟩) := rfl
  exact ⟨hx, hy, claim_C9_amended ⟨2 / 10000000, 0⟩ ⟨0, 0⟩ hx hy⟩

/-! ### Bookkeeping lemmas for the detection passes -/

/-- A data container with all collections empty. -/
def emptyData : ExtractedData :=
  ⟨[], [], [], [], [], [], [], [], [], [], [], 0, 0, []⟩

lemma runCA_keep_all {step : Polyline → CAResult} :
    ∀ {l : List Polyline}, (∀ pl ∈ l, step pl = .keep) → runCA step l = (l, [], []) := by
  intro l
  induction l with
  | nil => intro _; rfl
  | cons pl rest ih =>
    intro h
    simp only [runCA]
    rw [h pl (List.mem_cons_self pl rest),
        ih fun q hq => h q (List.mem_cons_of_mem pl hq)]

lemma runCA_mem_keep {step : Polyline → CAResult} :
    ∀ {l : List Polyline} {pl : Polyline},
      pl ∈ (runCA step l).1 → pl ∈ l ∧ step pl = .keep := by
  intro l
  induction l with
  | nil => intro pl h; simp [runCA] at h
  | cons q rest ih =>
    intro pl h
    simp only [runCA] at h
    cases hq : step q with
    | keep =>
      rw [hq] at h
      rcases List.mem_cons.mp h with h1 | h2
      · subst h1
        exact ⟨List.mem_cons_self _ _, hq⟩
      · obtain ⟨hm, hs⟩ := ih h2
        exact ⟨List.mem_cons_of_mem q hm, hs⟩
    | circle c =>
      rw [hq] at h
      obtain ⟨hm, hs⟩ := ih h
      exact ⟨List.mem_cons_of_mem q hm, hs⟩
    | arc a =>
      rw [hq] at h
      obtain ⟨hm, hs⟩ := ih h
      exact ⟨List.mem_cons_of_mem q hm, hs⟩

lemma runCA_keep_mem {step : Polyline → CAResult} :
    ∀ {l : List Polyline} {pl : Polyline},
      pl ∈ l → step pl = .keep → pl ∈ (runCA step l).1 := by
  intro l
  induction l with
  | nil => intro pl h _; simp at h
  | cons q rest ih =>
    intro pl h hs
    simp only [runCA]
    rcases List.mem_cons.mp h with h1 | h2
    · subst h1
      rw [hs]
      exact List.mem_cons_self _ _
    · cases hq : step q <;> simp only [] <;>
        first
          | exact List.mem_cons_of_mem _ (ih h2 hs)
          | exact ih h2 hs

lemma runCA_mem_circle {step : Polyline → CAResult} :
    ∀ {l : List Polyline} {c : Circle},
      c ∈ (runCA step l).2.1 → ∃ pl ∈ l, step pl = .circle c := by
  intro l
  induction l with
  | nil => intro c h; simp [runCA] at h
  | cons q rest ih =>
    intro c h
    simp only [runCA] at h
    cases hq : step q with
    | keep =>
      rw [hq] at h
      obtain ⟨pl, hm, hs⟩ := ih h
      exact ⟨pl, List.mem_cons_of_mem q hm, hs⟩
    | circle c2 =>
      rw [hq] at h
      rcases List.mem_cons.mp h with h1 | h2
      · exact ⟨q, List.mem_cons_self q rest, h1 ▸ hq⟩
      · obtain ⟨pl, hm, hs⟩ := ih h2
        exact ⟨pl, List.mem_cons_of_mem q hm, hs⟩
    | arc a =>
      rw [hq] at h
      obtain ⟨pl, hm, hs⟩ := ih h
      exact ⟨pl, List.mem_cons_of_mem q hm, hs⟩

lemma runCA_mem_arc {step : Polyline → CAResult} :
    ∀ {l : List Polyline} {a : Arc},
      a ∈ (runCA step l).2.2 → ∃ pl ∈ l, step pl = .arc a := by
  intro l
  induction l with
  | nil => intro a h; simp [runCA] at h
  | cons q rest ih =>
    intro a h
    simp only [runCA] at h
    cases hq : step q with
    | keep =>
      rw [hq] at h
      obtain ⟨pl, hm, hs⟩ := ih h
      exact ⟨pl, List.mem_cons_of_mem q hm, hs⟩
    | circle c =>
      rw [hq] at h
      obtain ⟨pl, hm, hs⟩ := ih h
      exact ⟨pl, List.mem_cons_of_mem q hm, hs⟩
    | arc a2 =>
      rw [hq] at h
      rcases List.mem_cons.mp h with h1 | h2
      · exact ⟨q, List.mem_cons_self q rest, h1 ▸ hq⟩
      · obtain ⟨pl, hm, hs⟩ := ih h2
        exact ⟨pl, List.mem_cons_of_mem q hm, hs⟩

lemma runCA_circle_mem {step : Polyline → CAResult} :
    ∀ {l : List Polyline} {pl : Polyline} {c : Circle},
      pl ∈ l → step pl = .circle c → c ∈ (runCA step l).2.1 := by
  intro l
  induction l with
  | nil => intro pl c h _; simp at h
  | cons q rest ih =>
    intro pl c h hs
    simp only [runCA]
    rcases List.mem_cons.mp h with h1 | h2
    · subst h1
      rw [hs]
      exact List.mem_cons_self _ _
    · cases hq : step q <;> simp only [] <;>
        first
          | exact List.mem_cons_of_mem _ (ih h2 hs)
          | exact ih h2 hs

lemma runCA_arc_mem {step : Polyline → CAResult} :
    ∀ {l : List Polyline} {pl : Polyline} {a : Arc},
      pl ∈ l → step pl = .arc a → a ∈ (runCA step l).2.2 := by
  intro l
  induction l with
  | nil => intro pl a h _; simp at h
  | cons q rest ih =>
    intro pl a h hs
    simp only [runCA]
    rcases List.mem_cons.mp h with h1 | h2
    · subst h1
      rw [hs]
      exact List.mem_cons_self _ _
    · cases hq : step q <;> simp only [] <;>
        first
          | exact List.mem_cons_of_mem _ (ih h2 hs)
          | exact ih h2 hs

lemma runCA_counts (step : Polyline → CAResult) :
    ∀ l : List Polyline,
      (runCA step l).1.length + (runCA step l).2.1.length + (runCA step l).2.2.length =
        l.length := by
  intro l
  induction l with
  | nil => rfl
  | cons q rest ih =>
    simp only [runCA]
    cases hq : step q <;> simp only [List.length_cons] <;> omega

lemma runEll_keep_all {step : Polyline → EResult} :
    ∀ {l : List Polyline}, (∀ pl ∈ l, step pl = .keep) → runEll step l = (l, []) := by
  intro l
  induction l with
  | nil => intro _; rfl
  | cons pl rest ih =>
    intro h
    simp only [runEll]
    rw [h pl (List.mem_cons_self pl rest),
        ih fun q hq => h q (List.mem_cons_of_mem pl hq)]

lemma runEll_mem_keep {step : Polyline → EResult} :
    ∀ {l : List Polyline} {pl : Polyline},
      pl ∈ (runEll step l).1 → pl ∈ l ∧ step pl = .keep := by
  intro l
  induction l with
  | nil => intro pl h; simp [runEll] at h
  | cons q rest ih =>
    intro pl h
    simp only [runEll] at h
    cases hq : step q with
    | keep =>
      rw [hq] at h
      rcases List.mem_cons.mp h with h1 | h2
      · subst h1
        exact ⟨List.mem_cons_self _ _, hq⟩
      · obtain ⟨hm, hs⟩ := ih h2
        exact ⟨List.mem_cons_of_mem q hm, hs⟩
    | ellipse e =>
      rw [hq] at h
      obtain ⟨hm, hs⟩ := ih h
      exact ⟨List.mem_cons_of_mem q hm, hs⟩

lemma runEll_keep_mem {step : Polyline → EResult} :
    ∀ {l : List Polyline} {pl : Polyline},
      pl ∈ l → step pl = .keep → pl ∈ (runEll step l).1 := by
  intro l
  induction l with
  | nil => intro pl h _; simp at h
  | cons q rest ih =>
    intro pl h hs
    simp only [runEll]
    rcases List.mem_cons.mp h with h1 | h2
    · subst h1
      rw [hs]
      exact List.mem_cons_self _ _
    · cases hq : step q <;> simp only [] <;>
        first
          | exact List.mem_cons_of_mem _ (ih h2 hs)
          | exact ih h2 hs

lemma runEll_mem_ellipse {step : Polyline → EResult} :
    ∀ {l : List Polyline} {e : Ellipse},
      e ∈ (runEll step l).2 → ∃ pl ∈ l, step pl = .ellipse e := by
  intro l
  induction l with
  | nil => intro e h; simp [runEll] at h
  | cons q rest ih =>
    intro e h
    simp only [runEll] at h
    cases hq : step q with
    | keep =>
      rw [hq] at h
      obtain ⟨pl, hm, hs⟩ := ih h
      exact ⟨pl, List.mem_cons_of_mem q hm, hs⟩
    | ellipse e2 =>
      rw [hq] at h
      rcases List.mem_cons.mp h with h1 | h2
      · exact ⟨q, List.mem_cons_self q rest, h1 ▸ hq⟩
      · obtain ⟨pl, hm, hs⟩ := ih h2
        exact ⟨pl, List.mem_cons_of_mem q hm, hs⟩

lemma runEll_ellipse_mem {step : Polyline → EResult} :
    ∀ {l : List Polyline} {pl : Polyline} {e : Ellipse},
      pl ∈ l → step pl = .ellipse e → e ∈ (runEll step l).2 := by
  intro l
  induction l with
  | nil => intro pl e h _; simp at h
  | cons q rest ih =>
    intro pl e h hs
    simp only [runEll]
    rcases List.mem_cons.mp h with h1 | h2
    · subst h1
      rw [hs]
      exact List.mem_cons_self _ _
    · cases hq : step q <;> simp only [] <;>
        first
          | exact List.mem_cons_of_mem _ (ih h2 hs)
          | exact ih h2 hs

lemma runEll_counts (step : Polyline → EResult) :
    ∀ l : List Polyline,
      (runEll step l).1.length + (runEll step l).2.length = l.length := by
  intro l
  induction l with
  | nil => rfl
  | cons q rest ih =>
    simp only [runEll]
    cases hq : step q <;> simp only [List.length_cons] <;> omega

/-- A promoted circle copies the polyline's style. -/
lemma circleArcStep_circle_style {fit : List Point → Option ((ℝ × ℝ) × ℝ × ℝ)} {tol : ℝ}
    {pl : Polyline} {c : Circle} (h : circleArcStep fit tol pl = .circle c) :
    c.color = pl.color ∧ c.width = pl.width ∧ c.layer = pl.layer ∧
      c.linetype = pl.linetype := by
  simp only [circleArcStep] at h
  split at h
  · simp at h
  · split at h
    · simp at h
    · split at h
      · split at h
        · simp only [CAResult.circle.injEq] at h
          rw [← h]
          exact ⟨rfl, rfl, rfl, rfl⟩
        · simp at h
      · simp at h

/-- A promoted arc copies the polyline's style. -/
lemma circleArcStep_arc_style {fit : List Point → Option ((ℝ × ℝ) × ℝ × ℝ)} {tol : ℝ}
    {pl : Polyline} {a : Arc} (h : circleArcStep fit tol pl = .arc a) :
    a.color = pl.color ∧ a.width = pl.width ∧ a.layer = pl.layer ∧
      a.linetype = pl.linetype := by
  simp only [circleArcStep] at h
  split at h
  · simp at h
  · split at h
    · simp at h
    · split at h
      · split at h
        · simp at h
        · simp only [CAResult.arc.injEq] at h
          rw [← h]
          exact ⟨rfl, rfl, rfl, rfl⟩
      · simp at h

/-- An emitted ellipse copies the polyline's style and has passed the
near-circular deferral guard, so its ratio is at most 0.95. -/
lemma ellipseStep_ellipse_props {fit : List Point → Option EllipseFit} {tol : ℝ}
    {pl : Polyline} {e : Ellipse} (h : ellipseStep fit tol pl = .ellipse e) :
    e.ratio ≤ 0.95 ∧ e.color = pl.color ∧ e.width = pl.width ∧ e.layer = pl.layer ∧
      e.linetype = pl.linetype := by
  simp only [ellipseStep] at h
  split at h
  · simp at h
  · split at h
    · simp at h
    · split at h
      · split at h <;>
          [skip; skip] <;>
          · split at h
            · simp at h
            · rename_i hratio
              split at h <;>
                · simp only [EResult.ellipse.injEq] at h
                  rw [← h]
                  exact ⟨le_of_not_lt hratio, rfl, rfl, rfl, rfl⟩
      · simp at h

/-- A 3-point collinear test polyline. -/
def polyline3 : Polyline :=
  ⟨[⟨0, 0⟩, ⟨1, 0⟩, ⟨2, 0⟩], false, (0, 0, 0), 1, "0", .continuous⟩

/-- A data container holding only the 3-point test polyline. -/
def data3 : ExtractedData := { emptyData with polylines := [polyline3] }

/-- C7: the fitters are total: the circle fitter returns no-fit or a fit
whose radius is strictly positive (a zero radius is never silently
accepted), and the ellipse fitter returns no-fit or a fit, for every
input point list and every behaviour of the external linear-algebra
solver (whose failures are modelled as `none`).  When every polyline is
rejected the detection passes return the data unchanged; an individual
rejected polyline always stays in the polyline set; and a 3-point
(in particular collinear) polyline is never promoted to a circle. -/
theorem claim_C7 :
    (∀ (solver : List Point → Option (ℝ × ℝ × ℝ)) (pts : List Point),
      fitCircle solver pts = none ∨
        ∃ center radius err, fitCircle solver pts = some (center, radius, err) ∧
          0 < radius) ∧
    (∀ (solver : List Point → Option (ℝ × ℝ × ℝ × ℝ × ℝ × ℝ)) (pts : List Point),
      fitEllipse solver pts = none ∨ ∃ r, fitEllipse solver pts = some r) ∧
    (∀ (solver : List Point → Option (ℝ × ℝ × ℝ)) (tol : ℝ) (data : ExtractedData),
      (∀ pl ∈ data.polylines, circleArcStep (fitCircle solver) tol pl = .keep) →
      detectCirclesAndArcs solver tol data = data) ∧
    (∀ (solver : List Point → Option (ℝ × ℝ × ℝ × ℝ × ℝ × ℝ)) (tol : ℝ)
       (data : ExtractedData),
      (∀ pl ∈ data.polylines, ellipseStep (fitEllipse solver) tol pl = .keep) →
      detectEllipses solver tol data = data) ∧
    (∀ (solver : List Point → Option (ℝ × ℝ × ℝ)) (tol : ℝ) (data : ExtractedData)
       (pl : Polyline), pl ∈ data.polylines →
      circleArcStep (fitCircle solver) tol pl = .keep →
      pl ∈ (detectCirclesAndArcs solver tol data).polylines) ∧
    (∀ (solver : List Point → Option (ℝ × ℝ × ℝ × ℝ × ℝ × ℝ)) (tol : ℝ)
       (data : ExtractedData) (pl : Polyline), pl ∈ data.polylines →
      ellipseStep (fitEllipse solver) tol pl = .keep →
      pl ∈ (detectEllipses solver tol data).polylines) ∧
    (∀ (solver : List Point → Option (ℝ × ℝ × ℝ)) (tol : ℝ) (pl : Polyline),
      pl.points.length = 3 → circleArcStep (fitCircle solver) tol pl = .keep) := by
  refine ⟨?_, ?_, ?_, ?_, ?_, ?_, ?_⟩
  · intro solver pts
    simp only [fitCircle]
    split
    · exact Or.inl rfl
    · split
      · exact Or.inl rfl
      · split
        · exact Or.inl rfl
        · rename_i hpos
          exact Or.inr ⟨_, _, _, rfl, Real.sqrt_pos.mpr (by linarith [not_le.mp hpos])⟩
  · intro solver pts
    cases h : fitEllipse solver pts with
    | none => exact Or.inl rfl
    | some r => exact Or.inr ⟨r, rfl⟩
  · intro solver tol data h
    simp only [detectCirclesAndArcs]
    rw [runCA_keep_all h]
    simp
  · intro solver tol data h
    simp only [detectEllipses]
    rw [runEll_keep_all h]
    simp
  · intro solver tol data pl hm hk
    exact runCA_keep_mem hm hk
  · intro solver tol data pl hm hk
    exact runEll_keep_mem hm hk
  · intro solver tol pl h3
    simp [circleArcStep, h3]

/-- Witness for C7: the all-rejected parts at an empty container, the
keep-membership parts and the 3-point part at the collinear 3-point
polyline, with a solver that always fails. -/
theorem claim_C7_witness :
    ((∀ pl ∈ emptyData.polylines,
        circleArcStep (fitCircle fun _ => none) 0.02 pl = .keep) ∧
     detectCirclesAndArcs (fun _ => none) 0.02 emptyData = emptyData) ∧
    ((∀ pl ∈ emptyData.polylines,
        ellipseStep (fitEllipse fun _ => none) 0.05 pl = .keep) ∧
     detectEllipses (fun _ => none) 0.05 emptyData = emptyData) ∧
    (polyline3.points.length = 3 ∧
     circleArcStep (fitCircle fun _ => none) 0.02 polyline3 = .keep) ∧
    (polyline3 ∈ data3.polylines ∧
     polyline3 ∈ (detectCirclesAndArcs (fun _ => none) 0.02 data3).polylines) ∧
    (ellipseStep (fitEllipse fun _ => none) 0.05 polyline3 = .keep ∧
     polyline3 ∈ (detectEllipses (fun _ => none) 0.05 data3).polylines) := by
  have hva : ∀ pl ∈ emptyData.polylines,
      circleArcStep (fitCircle fun _ => none) 0.02 pl = .keep := by
    intro pl h
    simp [emptyData] at h
  have hvb : ∀ pl ∈ emptyData.polylines,
      ellipseStep (fitEllipse fun _ => none) 0.05 pl = .keep := by
    intro pl h
    simp [emptyData] at h
  have hlen3 : polyline3.points.length = 3 := by simp [polyline3]
  have hkeep := claim_C7.2.2.2.2.2.2 (fun _ => none) 0.02 polyline3 hlen3
  have hmem : polyline3 ∈ data3.polylines := by simp [data3]
  have hkeepE : ellipseStep (fitEllipse fun _ => none) 0.05 polyline3 = .keep := by
    have : polyline3.points.length < 8 := by rw [hlen3]; norm_num
    simp [ellipseStep, this]
  exact ⟨⟨hva, claim_C7.2.2.1 _ _ _ hva⟩,
         ⟨hvb, claim_C7.2.2.2.1 _ _ _ hvb⟩,
         ⟨hlen3, hkeep⟩,
         ⟨hmem, claim_C7.2.2.2.2.1 _ _ _ _ hmem hkeep⟩,
         ⟨hkeepE, claim_C7.2.2.2.2.2.1 _ _ _ _ hmem hkeepE⟩⟩

/-- C10: the two detection passes modify only the polyline, circle, arc
and ellipse collections: every other collection and the page dimensions
are unchanged; the total entity count over the touched collections is
preserved (each accepted polyline is removed and replaced by exactly one
promoted entity); every polyline of the input is either kept verbatim or
promoted to exactly one Circle/Arc/Ellipse carrying its exact color,
width, layer and linetype; and the output polyline set holds exactly the
rejected input polylines. -/
theorem claim_C10 :
    ∀ (csolver : List Point → Option (ℝ × ℝ × ℝ))
      (esolver : List Point → Option (ℝ × ℝ × ℝ × ℝ × ℝ × ℝ)) (tc te : ℝ)
      (data : ExtractedData),
      ((detectCirclesAndArcs csolver tc data).lines = data.lines ∧
       (detectCirclesAndArcs csolver tc data).ellipses = data.ellipses ∧
       (detectCirclesAndArcs csolver tc data).splines = data.splines ∧
       (detectCirclesAndArcs csolver tc data).texts = data.texts ∧
       (detectCirclesAndArcs csolver tc data).mtexts = data.mtexts ∧
       (detectCirclesAndArcs csolver tc data).rectangles = data.rectangles ∧
       (detectCirclesAndArcs csolver tc data).hatches = data.hatches ∧
       (detectCirclesAndArcs csolver tc data).images = data.images ∧
       (detectCirclesAndArcs csolver tc data).width = data.width ∧
       (detectCirclesAndArcs csolver tc data).height = data.height ∧
       (detectCirclesAndArcs csolver tc data).layers = data.layers) ∧
      ((detectCirclesAndArcs csolver tc data).polylines.length +
         (detectCirclesAndArcs csolver tc data).circles.length +
         (detectCirclesAndArcs csolver tc data).arcs.length =
       data.polylines.length + data.circles.length + data.arcs.length) ∧
      (∀ pl ∈ data.polylines,
        (circleArcStep (fitCircle csolver) tc pl = .keep ∧
          pl ∈ (detectCirclesAndArcs csolver tc data).polylines) ∨
        (∃ c, circleArcStep (fitCircle csolver) tc pl = .circle c ∧
          c ∈ (detectCirclesAndArcs csolver tc data).circles ∧
          c.color = pl.color ∧ c.width = pl.width ∧ c.layer = pl.layer ∧
          c.linetype = pl.linetype) ∨
        (∃ a, circleArcStep (fitCircle csolver) tc pl = .arc a ∧
          a ∈ (detectCirclesAndArcs csolver tc data).arcs ∧
          a.color = pl.color ∧ a.width = pl.width ∧ a.layer = pl.layer ∧
          a.linetype = pl.linetype)) ∧
      (∀ pl ∈ (detectCirclesAndArcs csolver tc data).polylines,
        pl ∈ data.polylines ∧ circleArcStep (fitCircle csolver) tc pl = .keep) ∧
      ((detectEllipses esolver te data).lines = data.lines ∧
       (detectEllipses esolver te data).circles = data.circles ∧
       (detectEllipses esolver te data).arcs = data.arcs ∧
       (detectEllipses esolver te data).splines = data.splines ∧
       (detectEllipses esolver te data).texts = data.texts ∧
       (detectEllipses esolver te data).mtexts = data.mtexts ∧
       (detectEllipses esolver te data).rectangles = data.rectangles ∧
       (detectEllipses esolver te data).hatches = data.hatches ∧
       (detectEllipses esolver te data).images = data.images ∧
       (detectEllipses esolver te data).width = data.width ∧
       (detectEllipses esolver te data).height = data.height ∧
       (detectEllipses esolver te data).layers = data.layers) ∧
      ((detectEllipses esolver te data).polylines.length +
         (detectEllipses esolver te data).ellipses.length =
       data.polylines.length + data.ellipses.length) ∧
      (∀ pl ∈ data.polylines,
        (ellipseStep (fitEllipse esolver) te pl = .keep ∧
          pl ∈ (detectEllipses esolver te data).polylines) ∨
        (∃ e, ellipseStep (fitEllipse esolver) te pl = .ellipse e ∧
          e ∈ (detectEllipses esolver te data).ellipses ∧
          e.color = pl.color ∧ e.width = pl.width ∧ e.layer = pl.layer ∧
          e.linetype = pl.linetype)) ∧
      (∀ pl ∈ (detectEllipses esolver te data).polylines,
        pl ∈ data.polylines ∧ ellipseStep (fitEllipse esolver) te pl = .keep) := by
  intro csolver esolver tc te data
  refine ⟨⟨rfl, rfl, rfl, rfl, rfl, rfl, rfl, rfl, rfl, rfl, rfl⟩, ?_, ?_, ?_,
          ⟨rfl, rfl, rfl, rfl, rfl, rfl, rfl, rfl, rfl, rfl, rfl, rfl⟩, ?_, ?_, ?_⟩
  · have hc := runCA_counts (circleArcStep (fitCircle csolver) tc) data.polylines
    simp only [detectCirclesAndArcs, List.length_append]
    omega
  · intro pl hm
    cases hstep : circleArcStep (fitCircle csolver) tc pl with
    | keep => exact Or.inl ⟨rfl, runCA_keep_mem hm hstep⟩
    | circle c =>
      obtain ⟨h1, h2, h3, h4⟩ := circleArcStep_circle_style hstep
      exact Or.inr (Or.inl ⟨c, rfl,
        List.mem_append_right _ (runCA_circle_mem hm hstep), h1, h2, h3, h4⟩)
    | arc a =>
      obtain ⟨h1, h2, h3, h4⟩ := circleArcStep_arc_style hstep
      exact Or.inr (Or.inr ⟨a, rfl,
        List.mem_append_right _ (runCA_arc_mem hm hstep), h1, h2, h3, h4⟩)
  · intro pl hm
    exact runCA_mem_keep hm
  · have hc := runEll_counts (ellipseStep (fitEllipse esolver) te) data.polylines
    simp only [detectEllipses, List.length_append]
    omega
  · intro pl hm
    cases hstep : ellipseStep (fitEllipse esolver) te pl with
    | keep => exact Or.inl ⟨rfl, runEll_keep_mem hm hstep⟩
    | ellipse e =>
      obtain ⟨_, h1, h2, h3, h4⟩ := ellipseStep_ellipse_props hstep
      exact Or.inr ⟨e, rfl,
        List.mem_append_right _ (runEll_ellipse_mem hm hstep), h1, h2, h3, h4⟩
  · intro pl hm
    exact runEll_mem_keep hm

/-- Witness for C10: the membership hypotheses discharged on the
single-polyline container `data3`, whose polyline is rejected by both
passes. -/
theorem claim_C10_witness :
    (polyline3 ∈ data3.polylines ∧
     ((circleArcStep (fitCircle fun _ => none) 0.02 polyline3 = .keep ∧
        polyline3 ∈ (detectCirclesAndArcs (fun _ => none) 0.02 data3).polylines) ∨
      (∃ c, circleArcStep (fitCircle fun _ => none) 0.02 polyline3 = .circle c ∧
        c ∈ (detectCirclesAndArcs (fun _ => none) 0.02 data3).circles ∧
        c.color = polyline3.color ∧ c.width = polyline3.width ∧
        c.layer = polyline3.layer ∧ c.linetype = polyline3.linetype) ∨
      (∃ a, circleArcStep (fitCircle fun _ => none) 0.02 polyline3 = .arc a ∧
        a ∈ (detectCirclesAndArcs (fun _ => none) 0.02 data3).arcs ∧
        a.color = polyline3.color ∧ a.width = polyline3.width ∧
        a.layer = polyline3.layer ∧ a.linetype = polyline3.linetype))) ∧
    (polyline3 ∈ (detectEllipses (fun _ => none) 0.05 data3).polylines ∧
     polyline3 ∈ data3.polylines ∧
     ellipseStep (fitEllipse fun _ => none) 0.05 polyline3 = .keep) := by
  have hmem : polyline3 ∈ data3.polylines := by simp [data3]
  have hkeepE : ellipseStep (fitEllipse fun _ => none) 0.05 polyline3 = .keep := by
    have h8 : polyline3.points.length < 8 := by simp [polyline3]
    simp [ellipseStep, h8]
  have hmemE : polyline3 ∈ (detectEllipses (fun _ => none) 0.05 data3).polylines :=
    runEll_keep_mem hmem hkeepE
  exact ⟨⟨hmem, (claim_C10 (fun _ => none) (fun _ => none) 0.02 0.05 data3).2.2.1
            polyline3 hmem⟩,
         ⟨hmemE, (claim_C10 (fun _ => none) (fun _ => none) 0.02 0.05 data3).2.2.2.2.2.2.2
            polyline3 hmemE⟩⟩

/-! ### Claim C1: circle versus arc promotion -/

/-- A normalized bearing always lies in `[0, 360)`. -/
lemma bearingDeg_bounds (c : ℝ × ℝ) (p : Point) :
    0 ≤ bearingDeg c p ∧ bearingDeg c p < 360 := by
  unfold bearingDeg degOf atan2
  set a := Complex.arg ⟨p.x - c.1, p.y - c.2⟩ with ha
  have h1 : -Real.pi < a := Complex.neg_pi_lt_arg _
  have h2 : a ≤ Real.pi := Complex.arg_le_pi _
  have hpi := Real.pi_pos
  by_cases hneg : a * 180 / Real.pi < 0
  · rw [if_pos hneg]
    have hlb : -180 < a * 180 / Real.pi := by
      rw [lt_div_iff hpi]
      nlinarith
    constructor
    · linarith
    · linarith
  · rw [if_neg hneg]
    have hub : a * 180 / Real.pi ≤ 180 := by
      rw [div_le_iff hpi]
      nlinarith
    constructor
    · linarith [not_lt.mp hneg]
    · linarith

/-- C1: whenever a polyline with at least 6 points has a successful
circle fit with `radius > 0.5` and RMS error below
`tolerance * radius`, it is promoted — to a Circle exactly when the
angular coverage about the fitted center exceeds `0.9 * 2 * pi`, the
polyline is closed, and it has at least 8 points; otherwise to an Arc
whose start/end angles are the bearings of the first/last points from
the center, in degrees normalized to `[0, 360)`, swapped exactly when
the point ordering about the center is clockwise (signed polygon area
at most 0). -/
theorem claim_C1
    (solver : List Point → Option (ℝ × ℝ × ℝ)) (tol : ℝ) (pl : Polyline)
    (center : ℝ × ℝ) (radius err : ℝ)
    (h6 : 6 ≤ pl.points.length)
    (hfit : fitCircle solver pl.points = some (center, radius, err))
    (hr : 0.5 < radius) (he : err < tol * radius) :
    (circleArcStep (fitCircle solver) tol pl =
        .circle ⟨⟨center.1, center.2⟩, radius, pl.color, pl.width, pl.layer,
                 pl.linetype⟩ ↔
      (0.9 * (2 * Real.pi) < angularCoverage pl.points center ∧ pl.closed = true ∧
        8 ≤ pl.points.length)) ∧
    (¬ (0.9 * (2 * Real.pi) < angularCoverage pl.points center ∧ pl.closed = true ∧
        8 ≤ pl.points.length) →
      ∃ sa ea,
        circleArcStep (fitCircle solver) tol pl =
          .arc ⟨⟨center.1, center.2⟩, radius, sa, ea, pl.color, pl.width, pl.layer,
                pl.linetype⟩ ∧
        (signedAreaAbout pl.points center ≤ 0 →
          sa = bearingDeg center (pl.points.getLastD ⟨0, 0⟩) ∧
          ea = bearingDeg center (pl.points.headD ⟨0, 0⟩)) ∧
        (0 < signedAreaAbout pl.points center →
          sa = bearingDeg center (pl.points.headD ⟨0, 0⟩) ∧
          ea = bearingDeg center (pl.points.getLastD ⟨0, 0⟩)) ∧
        0 ≤ sa ∧ sa < 360 ∧ 0 ≤ ea ∧ ea < 360) := by
  have hiff : isFullCircle pl.points center radius ↔
      (0.9 * (2 * Real.pi) < angularCoverage pl.points center ∧
        8 ≤ pl.points.length) := by
    unfold isFullCircle
    split
    · rename_i hlt
      constructor
      · intro h
        exact absurd h not_false
      · rintro ⟨_, h8⟩
        omega
    · rename_i hge
      constructor
      · intro hcov
        exact ⟨hcov, by omega⟩
      · rintro ⟨hcov, _⟩
        exact hcov
  constructor
  · simp only [circleArcStep]
    rw [if_neg (by omega), hfit]
    dsimp only
    rw [if_pos ⟨hr, he⟩]
    by_cases hfull : isFullCircle pl.points center radius ∧ pl.closed = true
    · rw [if_pos hfull]
      constructor
      · intro _
        exact ⟨(hiff.mp hfull.1).1, hfull.2, (hiff.mp hfull.1).2⟩
      · intro _
        rfl
    · rw [if_neg hfull]
      constructor
      · intro hcirc
        simp at hcirc
      · rintro ⟨hcov, hcl, h8⟩
        exact absurd ⟨hiff.mpr ⟨hcov, h8⟩, hcl⟩ hfull
  · intro hnot
    have hfull : ¬ (isFullCircle pl.points center radius ∧ pl.closed = true) := by
      rintro ⟨hf, hcl⟩
      obtain ⟨hcov, h8⟩ := hiff.mp hf
      exact hnot ⟨hcov, hcl, h8⟩
    by_cases hccw : signedAreaAbout pl.points center ≤ 0
    · have hisccw : ¬ isCCW pl.points center := by
        unfold isCCW
        rw [if_neg (by omega)]
        exact not_lt.mpr hccw
      refine ⟨bearingDeg center (pl.points.getLastD ⟨0, 0⟩),
              bearingDeg center (pl.points.headD ⟨0, 0⟩), ?_,
              fun _ => ⟨rfl, rfl⟩,
              fun h0 => absurd h0 (not_lt.mpr hccw),
              (bearingDeg_bounds center _).1, (bearingDeg_bounds center _).2,
              (bearingDeg_bounds center _).1, (bearingDeg_bounds center _).2⟩
      simp only [circleArcStep]
      rw [if_neg (by omega), hfit]
      dsimp only
      rw [if_pos ⟨hr, he⟩, if_neg hfull, if_pos hisccw]
      rfl
    · have hpos : 0 < signedAreaAbout pl.points center := not_le.mp hccw
      have hisccw : isCCW pl.points center := by
        unfold isCCW
        rw [if_neg (by omega)]
        exact hpos
      refine ⟨bearingDeg center (pl.points.headD ⟨0, 0⟩),
              bearingDeg center (pl.points.getLastD ⟨0, 0⟩), ?_,
              fun h0 => absurd hpos (not_lt.mpr h0),
              fun _ => ⟨rfl, rfl⟩,
              (bearingDeg_bounds center _).1, (bearingDeg_bounds center _).2,
              (bearingDeg_bounds center _).1, (bearingDeg_bounds center _).2⟩
      simp only [circleArcStep]
      rw [if_neg (by omega), hfit]
      dsimp only
      rw [if_pos ⟨hr, he⟩, if_neg hfull, if_neg (not_not_intro hisccw)]
      rfl

/-- A solver returning the exact least-squares solution `(0, 0, 1)` of
`x*D + y*E + F = x^2 + y^2` for points on the unit circle. -/
def cSolverW : List Point → Option (ℝ × ℝ × ℝ) := fun _ => some (0, 0, 1)

/-- Six points on the unit circle, as an open polyline. -/
def plW : Polyline :=
  ⟨[⟨1, 0⟩, ⟨0, 1⟩, ⟨-1, 0⟩, ⟨0, -1⟩, ⟨3 / 5, 4 / 5⟩, ⟨-3 / 5, -4 / 5⟩],
   false, (0, 0, 0), 1, "0", .continuous⟩

/-- The circle fit on `plW` succeeds exactly: center `(0, 0)`, radius 1,
zero RMS error. -/
lemma fitCircle_plW : fitCircle cSolverW plW.points = some ((0, 0), 1, 0) := by
  simp only [fitCircle, cSolverW, plW]
  rw [if_neg (by norm_num), if_neg (by norm_num)]
  norm_num [Real.sqrt_one, Real.sqrt_zero, Real.sqrt_eq_one]

/-- Witness for C1 at the six unit-circle points with the exact solver,
tolerance 1. -/
theorem claim_C1_witness :
    6 ≤ plW.points.length ∧
    fitCircle cSolverW plW.points = some ((0, 0), 1, 0) ∧
    (0.5 : ℝ) < 1 ∧ (0 : ℝ) < 1 * 1 ∧
    ((circleArcStep (fitCircle cSolverW) 1 plW =
        .circle ⟨⟨(0 : ℝ), (0 : ℝ)⟩, 1, plW.color, plW.width, plW.layer,
                 plW.linetype⟩ ↔
      (0.9 * (2 * Real.pi) < angularCoverage plW.points ((0 : ℝ), (0 : ℝ)) ∧
        plW.closed = true ∧ 8 ≤ plW.points.length)) ∧
     (¬ (0.9 * (2 * Real.pi) < angularCoverage plW.points ((0 : ℝ), (0 : ℝ)) ∧
        plW.closed = true ∧ 8 ≤ plW.points.length) →
      ∃ sa ea,
        circleArcStep (fitCircle cSolverW) 1 plW =
          .arc ⟨⟨(0 : ℝ), (0 : ℝ)⟩, 1, sa, ea, plW.color, plW.width, plW.layer,
                plW.linetype⟩ ∧
        (signedAreaAbout plW.points ((0 : ℝ), (0 : ℝ)) ≤ 0 →
          sa = bearingDeg ((0 : ℝ), (0 : ℝ)) (plW.points.getLastD ⟨0, 0⟩) ∧
          ea = bearingDeg ((0 : ℝ), (0 : ℝ)) (plW.points.headD ⟨0, 0⟩)) ∧
        (0 < signedAreaAbout plW.points ((0 : ℝ), (0 : ℝ)) →
          sa = bearingDeg ((0 : ℝ), (0 : ℝ)) (plW.points.headD ⟨0, 0⟩) ∧
          ea = bearingDeg ((0 : ℝ), (0 : ℝ)) (plW.points.getLastD ⟨0, 0⟩)) ∧
        0 ≤ sa ∧ sa < 360 ∧ 0 ≤ ea ∧ ea < 360)) := by
  have h6 : 6 ≤ plW.points.length := by simp [plW]
  exact ⟨h6, fitCircle_plW, by norm_num, by norm_num,
    claim_C1 cSolverW 1 plW ((0 : ℝ), (0 : ℝ)) 1 0 h6 fitCircle_plW
      (by norm_num) (by norm_num)⟩

/-! ### Claim C2: the near-circular deferral boundary -/

/-- A solver returning the exact conic through the points of `pl95`:
`(361/400) x^2 + y^2 - 361/400 = 0`, the ellipse with semi-axes 1 (along
x) and 19/20 (along y).  The points of `pl95` satisfy this conic
equation exactly, so this coefficient vector is an exact solution of the
constrained algebraic fitting problem. -/
def eSolver95 : List Point → Option (ℝ × ℝ × ℝ × ℝ × ℝ × ℝ) :=
  fun _ => some (361 / 400, 0, 1, 0, 0, -(361 / 400))

/-- Eight points exactly on the conic `(361/400) x^2 + y^2 = 361/400`,
clustered near its diagonals, forming a closed polyline. -/
def pl95 : Polyline :=
  ⟨[⟨21 / 29, 19 / 29⟩, ⟨3 / 5, 19 / 25⟩, ⟨20 / 29, 399 / 580⟩, ⟨119 / 169, 114 / 169⟩,
    ⟨-(21 / 29), -(19 / 29)⟩, ⟨-(3 / 5), -(19 / 25)⟩, ⟨-(20 / 29), -(399 / 580)⟩,
    ⟨-(119 / 169), -(114 / 169)⟩],
   true, (0, 0, 0), 1, "0", .continuous⟩

/-- A data container holding only `pl95`. -/
def data95 : ExtractedData := { emptyData with polylines := [pl95] }

/-- The exact mean squared per-point error the source computes for
`pl95` under the fitted frame. -/
def q95 : ℝ :=
  (((156 / 15979 : ℝ) ^ 2 + (1326 / 59375 : ℝ) ^ 2 + (31161 / 127832000 : ℝ) ^ 2 +
    (699 / 166972 : ℝ) ^ 2) * 2) / 8

/-- Evaluation of the ellipse fitter on `pl95`: center `(0, 0)`, major
axis `(1, 0)`, minor axis `(0, 19/20)`, rotation `pi/2`, RMS error
`sqrt q95`. -/
lemma fitEllipse_95 :
    fitEllipse eSolver95 pl95.points =
      some ((0, 0), (1, 0), (0, 19 / 20), Real.pi / 2, Real.sqrt q95) := by
  have hs95 : Real.sqrt (361 / 400 : ℝ) = 19 / 20 := by
    rw [show (361 / 400 : ℝ) = (19 / 20) ^ 2 by norm_num, Real.sqrt_sq (by norm_num)]
  have hatan : atan2 0 ((361 : ℝ) / 400 - 1) = Real.pi := by
    unfold atan2
    have h : (⟨(361 : ℝ) / 400 - 1, 0⟩ : ℂ) = (((361 : ℝ) / 400 - 1 : ℝ) : ℂ) := rfl
    rw [h, Complex.arg_ofReal_of_neg (by norm_num)]
  have hhalf : (0.5 : ℝ) * Real.pi = Real.pi / 2 := by ring
  have hθcond : ¬ |(361 : ℝ) / 400 - 1| < 1e-10 := by
    rw [abs_of_nonpos (by norm_num)]
    norm_num
  have hdivself : (361 / 400 : ℝ) / (361 / 400) = 1 := by norm_num
  have hmax : max ((361 : ℝ) / 400) 1 = 1 := max_eq_right (by norm_num)
  have hmin : min ((361 : ℝ) / 400) 1 = 361 / 400 := min_eq_left (by norm_num)
  have hmin2 : min (1 : ℝ) (19 / 20) = 19 / 20 := min_eq_right (by norm_num)
  simp only [fitEllipse, eSolver95, pl95]
  rw [if_neg (by norm_num), if_neg (by norm_num)]
  simp only [if_neg hθcond, hatan, hhalf, Real.cos_pi_div_two, Real.sin_pi_div_two,
    mul_zero, zero_mul, mul_one, one_mul, add_zero, zero_add, sub_zero, neg_zero,
    zero_div, div_one, neg_neg, zero_sub, hdivself]
  rw [if_neg (by norm_num [abs_of_nonneg])]
  rw [if_neg (by norm_num)]
  simp only [if_neg (show ¬ (1 : ℝ) ≤ 361 / 400 by norm_num), hmax, hmin,
    Real.sqrt_one, hs95, hmin2, mul_zero, zero_mul, mul_one, one_mul, add_zero,
    zero_add, sub_zero, neg_zero, div_one]
  simp only [List.map_cons, List.map_nil, List.sum_cons, List.sum_nil,
    List.length_cons, List.length_nil]
  norm_num [q95, abs_of_nonneg, abs_of_nonpos]

lemma sqrt_q95_lt : Real.sqrt q95 < 0.05 := by
  rw [Real.sqrt_lt' (by norm_num)]
  norm_num [q95]

/-- The `detect_ellipses` loop body on `pl95` emits an Ellipse with
ratio exactly `19/20 = 0.95`. -/
lemma ellipseStep_95 :
    ∃ sp ep,
      ellipseStep (fitEllipse eSolver95) 0.05 pl95 =
        .ellipse ⟨⟨0, 0⟩, ⟨1, 0⟩, 19 / 20, sp, ep, pl95.color, pl95.width, pl95.layer,
                  pl95.linetype⟩ := by
  have hml : Real.sqrt ((1 : ℝ) ^ 2 + 0 ^ 2) = 1 := by norm_num
  have hrt : Real.sqrt ((0 : ℝ) ^ 2 + (19 / 20) ^ 2) = 19 / 20 := by
    rw [show ((0 : ℝ) ^ 2 + (19 / 20) ^ 2) = (19 / 20) ^ 2 by norm_num,
        Real.sqrt_sq (by norm_num)]
  have hnotfull : ¬ (isFullEllipse pl95.points (0, 0) (1, 0) (0, 19 / 20) ∧
      pl95.closed = true) := by
    rintro ⟨hf, _⟩
    unfold isFullEllipse at hf
    rw [if_pos (by norm_num [pl95])] at hf
    exact hf
  refine ⟨(calcEllipseParams (0, 0) (1, 0) (0, 19 / 20) (Real.pi / 2)
            (pl95.points.headD ⟨0, 0⟩) (pl95.points.getLastD ⟨0, 0⟩)).1,
          (calcEllipseParams (0, 0) (1, 0) (0, 19 / 20) (Real.pi / 2)
            (pl95.points.headD ⟨0, 0⟩) (pl95.points.getLastD ⟨0, 0⟩)).2, ?_⟩
  simp only [ellipseStep]
  rw [if_neg (by norm_num [pl95]), fitEllipse_95]
  dsimp only
  simp only [hml, hrt]
  rw [if_pos ⟨by norm_num, by rw [mul_one]; exact sqrt_q95_lt⟩]
  simp only [if_pos (show (0 : ℝ) < 1 by norm_num), div_one]
  rw [if_neg (by norm_num : ¬ (0.95 : ℝ) < 19 / 20), if_neg hnotfull]

/-- C2 fails as stated at the deferral boundary: on the eight exact
conic points of `pl95`, with the exact algebraic solution of the conic
fit, `detect_ellipses` emits an Ellipse whose ratio is exactly
`19/20 = 0.95` (the guard defers only for ratios strictly above 0.95),
and the polyline is removed — the claim says ratios at or above 0.95
must never be emitted. -/
theorem claim_C2_counterexample :
    (detectEllipses eSolver95 0.05 data95).ellipses.map Ellipse.ratio = [19 / 20] ∧
    (detectEllipses eSolver95 0.05 data95).polylines = [] ∧
    data95.ellipses = [] ∧ (0.95 : ℝ) ≤ 19 / 20 := by
  obtain ⟨sp, ep, hstep⟩ := ellipseStep_95
  have hrun : runEll (ellipseStep (fitEllipse eSolver95) 0.05) data95.polylines =
      ([], [⟨⟨0, 0⟩, ⟨1, 0⟩, 19 / 20, sp, ep, pl95.color, pl95.width, pl95.layer,
            pl95.linetype⟩]) := by
    show runEll (ellipseStep (fitEllipse eSolver95) 0.05) [pl95] = _
    simp only [runEll]
    rw [hstep]
  refine ⟨?_, ?_, rfl, by norm_num⟩
  · simp only [detectEllipses, hrun]
    simp [data95, emptyData]
  · simp only [detectEllipses, hrun]

/-- C2 amended: every Ellipse appended by `detect_ellipses` has ratio at
most 0.95 (the boundary value 0.95 itself is attainable), and for every
polyline whose accepted fit has minor:major ratio strictly above 0.95
no Ellipse is emitted and the polyline stays in the polyline set. -/
theorem claim_C2_amended :
    (∀ (esolver : List Point → Option (ℝ × ℝ × ℝ × ℝ × ℝ × ℝ)) (tol : ℝ)
       (data : ExtractedData) (e : Ellipse),
      e ∈ (detectEllipses esolver tol data).ellipses →
      e ∈ data.ellipses ∨ e.ratio ≤ 0.95) ∧
    (∀ (fit : List Point → Option EllipseFit) (tol : ℝ) (pl : Polyline)
       (center majorAxis minorAxis : ℝ × ℝ) (rotation err : ℝ),
      8 ≤ pl.points.length →
      fit pl.points = some (center, majorAxis, minorAxis, rotation, err) →
      0.5 < Real.sqrt (majorAxis.1 ^ 2 + majorAxis.2 ^ 2) →
      err < tol * Real.sqrt (majorAxis.1 ^ 2 + majorAxis.2 ^ 2) →
      0.95 < Real.sqrt (minorAxis.1 ^ 2 + minorAxis.2 ^ 2) /
        Real.sqrt (majorAxis.1 ^ 2 + majorAxis.2 ^ 2) →
      ellipseStep fit tol pl = .keep) ∧
    (∀ (fit : List Point → Option EllipseFit) (tol : ℝ) (data : ExtractedData)
       (pl : Polyline), pl ∈ data.polylines → ellipseStep fit tol pl = .keep →
      pl ∈ (runEll (ellipseStep fit tol) data.polylines).1) := by
  refine ⟨?_, ?_, ?_⟩
  · intro esolver tol data e he
    have he2 : e ∈ data.ellipses ++
        (runEll (ellipseStep (fitEllipse esolver) tol) data.polylines).2 := he
    rcases List.mem_append.mp he2 with h1 | h2
    · exact Or.inl h1
    · obtain ⟨pl, _, hstep⟩ := runEll_mem_ellipse h2
      exact Or.inr (ellipseStep_ellipse_props hstep).1
  · intro fit tol pl center majorAxis minorAxis rotation err h8 hfit hmaj herr hratio
    have hpos0 : (0 : ℝ) < Real.sqrt (majorAxis.1 ^ 2 + majorAxis.2 ^ 2) := by linarith
    simp only [ellipseStep]
    rw [if_neg (by omega), hfit]
    dsimp only
    rw [if_pos ⟨hmaj, herr⟩]
    simp only [if_pos hpos0]
    rw [if_pos hratio]
  · intro fit tol data pl hm hk
    exact runEll_keep_mem hm hk

/-- An 8-point polyline used to exercise the deferral rule. -/
def plE8 : Polyline :=
  ⟨[⟨0, 0⟩, ⟨1, 0⟩, ⟨2, 0⟩, ⟨3, 0⟩, ⟨4, 0⟩, ⟨5, 0⟩, ⟨6, 0⟩, ⟨7, 0⟩],
   false, (0, 0, 0), 1, "0", .continuous⟩

/-- Witness for C2 amended: the kept-ellipse part on a container with a
pre-existing ellipse, the deferral part on an accepted fit of ratio
`24/25 = 0.96`, the keep-membership part on that same polyline. -/
theorem claim_C2_witness :
    ((⟨⟨0, 0⟩, ⟨1, 0⟩, 1 / 2, 0, 2 * Real.pi, (0, 0, 0), 1, "0", .continuous⟩ : Ellipse) ∈
       (detectEllipses (fun _ => none) 0.05
         { emptyData with
           ellipses := [⟨⟨0, 0⟩, ⟨1, 0⟩, 1 / 2, 0, 2 * Real.pi, (0, 0, 0), 1, "0",
                         .continuous⟩] }).ellipses ∧
     ((⟨⟨0, 0⟩, ⟨1, 0⟩, 1 / 2, 0, 2 * Real.pi, (0, 0, 0), 1, "0", .continuous⟩ : Ellipse) ∈
        ExtractedData.ellipses
          { emptyData with
            ellipses := [⟨⟨0, 0⟩, ⟨1, 0⟩, 1 / 2, 0, 2 * Real.pi, (0, 0, 0), 1, "0",
                          .continuous⟩] } ∨
      Ellipse.ratio ⟨⟨0, 0⟩, ⟨1, 0⟩, 1 / 2, 0, 2 * Real.pi, (0, 0, 0), 1, "0",
                     .continuous⟩ ≤ 0.95)) ∧
    (8 ≤ plE8.points.length ∧
     (fun _ : List Point => some (((0 : ℝ), (0 : ℝ)), ((1 : ℝ), (0 : ℝ)),
        ((24 / 25 : ℝ), (0 : ℝ)), (0 : ℝ), (0 : ℝ))) plE8.points =
       some (((0 : ℝ), (0 : ℝ)), ((1 : ℝ), (0 : ℝ)), ((24 / 25 : ℝ), (0 : ℝ)),
             (0 : ℝ), (0 : ℝ)) ∧
     (0.5 : ℝ) < Real.sqrt ((1 : ℝ) ^ 2 + (0 : ℝ) ^ 2) ∧
     (0 : ℝ) < 1 * Real.sqrt ((1 : ℝ) ^ 2 + (0 : ℝ) ^ 2) ∧
     (0.95 : ℝ) < Real.sqrt ((24 / 25 : ℝ) ^ 2 + (0 : ℝ) ^ 2) /
       Real.sqrt ((1 : ℝ) ^ 2 + (0 : ℝ) ^ 2) ∧
     ellipseStep (fun _ => some (((0 : ℝ), (0 : ℝ)), ((1 : ℝ), (0 : ℝ)),
        ((24 / 25 : ℝ), (0 : ℝ)), (0 : ℝ), (0 : ℝ))) 1 plE8 = .keep) := by
  have hml : Real.sqrt ((1 : ℝ) ^ 2 + (0 : ℝ) ^ 2) = 1 := by norm_num
  have hmn : Real.sqrt ((24 / 25 : ℝ) ^ 2 + (0 : ℝ) ^ 2) = 24 / 25 := by
    rw [show ((24 / 25 : ℝ) ^ 2 + (0 : ℝ) ^ 2) = (24 / 25) ^ 2 by norm_num,
        Real.sqrt_sq (by norm_num)]
  have h8 : 8 ≤ plE8.points.length := by simp [plE8]
  have hkeep := claim_C2_amended.2.1
    (fun _ => some (((0 : ℝ), (0 : ℝ)), ((1 : ℝ), (0 : ℝ)), ((24 / 25 : ℝ), (0 : ℝ)),
      (0 : ℝ), (0 : ℝ))) 1 plE8 ((0 : ℝ), (0 : ℝ)) ((1 : ℝ), (0 : ℝ))
    ((24 / 25 : ℝ), (0 : ℝ)) (0 : ℝ) (0 : ℝ) h8 rfl
    (by rw [hml]; norm_num) (by rw [hml]; norm_num) (by rw [hml, hmn]; norm_num)
  have hemem : (⟨⟨0, 0⟩, ⟨1, 0⟩, 1 / 2, 0, 2 * Real.pi, (0, 0, 0), 1, "0",
      .continuous⟩ : Ellipse) ∈
      (detectEllipses (fun _ => none) 0.05
        { emptyData with
          ellipses := [⟨⟨0, 0⟩, ⟨1, 0⟩, 1 / 2, 0, 2 * Real.pi, (0, 0, 0), 1, "0",
                        .continuous⟩] }).ellipses := by
    simp [detectEllipses, runEll, emptyData]
  exact ⟨⟨hemem, claim_C2_amended.1 (fun _ => none) 0.05 _ _ hemem⟩,
         ⟨h8, rfl, by rw [hml]; norm_num, by rw [hml]; norm_num,
          by rw [hml, hmn]; norm_num, hkeep⟩⟩

/-! ### Close handling and the end-of-stream flush (claim C6) -/

/-- A fixed path context for the reconstructor examples below. -/
def ctx6 : PathCtx := ⟨(0, 0, 0), 1, .continuous, none, 1, 100⟩

/-- Dropping the first element of a list with at least two elements keeps
its last element. -/
lemma getLast?_drop_one {α : Type} {l : List α} (h : 2 ≤ l.length) :
    (l.drop 1).getLast? = l.getLast? := by
  match l, h with
  | a :: b :: t, _ =>
    show (b :: t).getLast? = (a :: b :: t).getLast?
    exact (List.getLast?_cons_cons).symm

/-- The degenerate cubic from `(1, 0)` with all three remaining control
points at the origin keeps the default 16 segments: chord and control
polygon both have length 1, so no adaptive tier fires. -/
lemma bezierSegs_c6 : bezierSegs ⟨1, 0⟩ ⟨0, 0⟩ ⟨0, 0⟩ ⟨0, 0⟩ 16 true = 16 := by
  simp only [bezierSegs, adaptSegsCubic, tierCubic, bumpAbs, chordCubic, controlLenCubic,
    Point.distance_to]
  norm_num

/-- The tail kept by `points[1:]` of that cubic starts at the sample
`t = 1/16`, namely `((15/16)^3, 0) = (3375/4096, 0)`. -/
lemma bez_c6_head :
    ((bezier_to_points ⟨1, 0⟩ ⟨0, 0⟩ ⟨0, 0⟩ ⟨0, 0⟩ 16).drop 1).head? =
      some ⟨3375 / 4096, 0⟩ := by
  unfold bezier_to_points
  rw [bezierSegs_c6]
  rw [List.range_succ_eq_map, List.map_cons]
  rw [show ∀ (a : Point) (l : List Point), (a :: l).drop 1 = l from fun a l => rfl]
  rw [List.map_map, List.range_succ_eq_map, List.map_cons, List.head?_cons]
  congr 1
  ext <;> simp [Function.comp] <;> norm_num

/-- That cubic still ends exactly at the origin after dropping its first
sample. -/
lemma bez_c6_last :
    ((bezier_to_points ⟨1, 0⟩ ⟨0, 0⟩ ⟨0, 0⟩ ⟨0, 0⟩ 16).drop 1).getLast? =
      some ⟨0, 0⟩ := by
  have hlen : 2 ≤ (bezier_to_points ⟨1, 0⟩ ⟨0, 0⟩ ⟨0, 0⟩ ⟨0, 0⟩ 16).length := by
    rw [bezier_to_points_length, bezierSegs_c6]
    norm_num
  rw [getLast?_drop_one hlen]
  exact bezier_to_points_last _ _ _ _ _ _ (by norm_num)

/-- The dropped tail has the 16 samples `t = 1/16, ..., 1`. -/
lemma bez_c6_len :
    ((bezier_to_points ⟨1, 0⟩ ⟨0, 0⟩ ⟨0, 0⟩ ⟨0, 0⟩ 16).drop 1).length = 16 := by
  rw [List.length_drop, bezier_to_points_length, bezierSegs_c6]

/-- State after `m (0,0); l (0,0)-(1,0); h`: the forced-closed subpath is
flushed, `path_points` is cleared, but the pen still sits at `(1, 0)` and
`path_start` still records `(0, 0)`. -/
lemma runCmds_c6 :
    runCmds ctx6 initState [.move ⟨0, 0⟩, .lineSeg ⟨0, 0⟩ ⟨1, 0⟩, .close] =
      ⟨[⟨[⟨0, 0⟩, ⟨1, 0⟩, ⟨0, 0⟩], true, false⟩], some ⟨1, 0⟩, [], some ⟨0, 0⟩,
        false, [], []⟩ := by
  unfold runCmds
  simp only [List.foldl_cons, List.foldl_nil]
  norm_num [stepCmd, flushInto, initState, Point.approx, Option.some_ne_none]

/-- The cubic issued after the Close grows a fresh subpath out of the
stale pen position `(1, 0)`. -/
lemma step_cubic_c6 :
    stepCmd ctx6 ⟨[⟨[⟨0, 0⟩, ⟨1, 0⟩, ⟨0, 0⟩], true, false⟩], some ⟨1, 0⟩, [],
        some ⟨0, 0⟩, false, [], []⟩ (.cubic ⟨0, 0⟩ ⟨0, 0⟩ ⟨0, 0⟩) =
      ⟨[⟨[⟨0, 0⟩, ⟨1, 0⟩, ⟨0, 0⟩], true, false⟩], some ⟨0, 0⟩,
        (bezier_to_points ⟨1, 0⟩ ⟨0, 0⟩ ⟨0, 0⟩ ⟨0, 0⟩ 16).drop 1, some ⟨0, 0⟩,
        true, [], []⟩ := rfl

/-- End-of-stream flush of the resulting state: the curve subpath is
appended and marked closed, because its last sample `(0, 0)` matches the
stale `path_start`, even though the declared close-flag is `false`. -/
lemma finish_c6 :
    finishSubpaths false (stepCmd ctx6 (runCmds ctx6 initState
        [.move ⟨0, 0⟩, .lineSeg ⟨0, 0⟩ ⟨1, 0⟩, .close]) (.cubic ⟨0, 0⟩ ⟨0, 0⟩ ⟨0, 0⟩)) =
      [⟨[⟨0, 0⟩, ⟨1, 0⟩, ⟨0, 0⟩], true, false⟩,
       ⟨(bezier_to_points ⟨1, 0⟩ ⟨0, 0⟩ ⟨0, 0⟩ ⟨0, 0⟩ 16).drop 1, true, true⟩] := by
  rw [runCmds_c6, step_cubic_c6]
  have hlastD : ((bezier_to_points ⟨1, 0⟩ ⟨0, 0⟩ ⟨0, 0⟩ ⟨0, 0⟩ 16).drop 1).getLastD ⟨0, 0⟩ =
      ⟨0, 0⟩ := by
    rw [List.getLastD_eq_getLast?, bez_c6_last]
    rfl
  unfold finishSubpaths
  dsimp only
  rw [hlastD, decide_eq_true (show Point.approx ⟨0, 0⟩ ⟨0, 0⟩ by norm_num [Point.approx])]
  unfold flushInto
  rw [if_pos (by rw [bez_c6_len]; norm_num)]
  rfl

/-- C6 fails as stated, on the command stream
`m (0,0); l (0,0)-(1,0); h; c (0,0) (0,0) (0,0)` with close-flag `false`:
processing the Close does not reset the current point (the pen still
reports `(1, 0)`, not `None`), so the subsequent curve continues from the
stale position; and the end-of-stream flush marks the resulting subpath
closed — its last point matches the stale recorded `path_start` — even
though the subpath's own first point `((15/16)^3, 0)` differs from its
last point `(0, 0)` and the declared close-flag is `false`. -/
theorem claim_C6_counterexample :
    (runCmds ctx6 initState
        [.move ⟨0, 0⟩, .lineSeg ⟨0, 0⟩ ⟨1, 0⟩, .close]).currentPoint = some ⟨1, 0⟩ ∧
    (runCmds ctx6 initState
        [.move ⟨0, 0⟩, .lineSeg ⟨0, 0⟩ ⟨1, 0⟩, .close]).currentPoint ≠ none ∧
    ∃ sp : Subpath,
      (finishSubpaths false (runCmds ctx6 initState
          [.move ⟨0, 0⟩, .lineSeg ⟨0, 0⟩ ⟨1, 0⟩, .close,
           .cubic ⟨0, 0⟩ ⟨0, 0⟩ ⟨0, 0⟩])).getLast? = some sp ∧
      sp.closed = true ∧
      ∃ h l : Point, sp.points.head? = some h ∧ sp.points.getLast? = some l ∧
        ¬ h.approx l := by
  have hfour : runCmds ctx6 initState
      [.move ⟨0, 0⟩, .lineSeg ⟨0, 0⟩ ⟨1, 0⟩, .close, .cubic ⟨0, 0⟩ ⟨0, 0⟩ ⟨0, 0⟩] =
      stepCmd ctx6 (runCmds ctx6 initState
        [.move ⟨0, 0⟩, .lineSeg ⟨0, 0⟩ ⟨1, 0⟩, .close]) (.cubic ⟨0, 0⟩ ⟨0, 0⟩ ⟨0, 0⟩) := rfl
  refine ⟨by rw [runCmds_c6], by rw [runCmds_c6]; simp,
    ⟨(bezier_to_points ⟨1, 0⟩ ⟨0, 0⟩ ⟨0, 0⟩ ⟨0, 0⟩ 16).drop 1, true, true⟩,
    ?_, rfl, ⟨3375 / 4096, 0⟩, ⟨0, 0⟩, bez_c6_head, bez_c6_last, ?_⟩
  · rw [hfour, finish_c6]
    rw [List.getLast?_cons_cons]
    rfl
  · norm_num [Point.approx]
    rw [abs_of_nonneg (by norm_num : (0 : ℝ) ≤ 3375 / 4096)]
    norm_num

/-- C6 amended: the Close handler appends the recorded start point when
the pen differs from it and flushes the subpath as closed whenever the
flushed list has at least 2 points, clearing `path_points` and the curve
flag — but it leaves the current point and the recorded start point
unchanged rather than resetting them; at end of stream a remaining
subpath with at least 2 points is flushed, marked closed if and only if
the declared close-flag is set or its last point matches the recorded
`path_start` (when one exists; with no recorded start the flag is copied
as is); a remaining subpath with fewer than 2 points is discarded
silently. -/
theorem claim_C6_amended :
    (∀ (ctx : PathCtx) (st : SubpathState) (s c : Point),
      st.pathStart = some s → st.currentPoint = some c →
      (stepCmd ctx st .close).pathPoints = [] ∧
      (stepCmd ctx st .close).hasCurves = false ∧
      (stepCmd ctx st .close).allSubpaths =
        st.allSubpaths ++
          (if 1 < (if ¬ s.approx c then st.pathPoints ++ [s]
                   else st.pathPoints).length then
             [⟨(if ¬ s.approx c then st.pathPoints ++ [s] else st.pathPoints),
               true, st.hasCurves⟩]
           else [])) ∧
    (∀ (ctx : PathCtx) (st : SubpathState),
      (stepCmd ctx st .close).currentPoint = st.currentPoint ∧
      (stepCmd ctx st .close).pathStart = st.pathStart) ∧
    (∀ (flag : Bool) (st : SubpathState) (s : Point),
      st.pathStart = some s → 2 ≤ st.pathPoints.length →
      ∃ sp : Subpath,
        finishSubpaths flag st = st.allSubpaths ++ [sp] ∧
        sp.points = st.pathPoints ∧ sp.has_curves = st.hasCurves ∧
        (sp.closed = true ↔
          (flag = true ∨ (st.pathPoints.getLastD ⟨0, 0⟩).approx s))) ∧
    (∀ (flag : Bool) (st : SubpathState),
      st.pathStart = none → 2 ≤ st.pathPoints.length →
      finishSubpaths flag st =
        st.allSubpaths ++ [⟨st.pathPoints, flag, st.hasCurves⟩]) ∧
    (∀ (flag : Bool) (st : SubpathState), st.pathPoints.length < 2 →
      finishSubpaths flag st = st.allSubpaths) := by
  refine ⟨?_, ?_, ?_, ?_, ?_⟩
  · intro ctx st s c hs hc
    refine ⟨rfl, rfl, ?_⟩
    simp only [stepCmd, hs, hc]
    unfold flushInto
    by_cases hlen :
      1 < (if ¬ s.approx c then st.pathPoints ++ [s] else st.pathPoints).length
    · rw [if_pos hlen, if_pos hlen]
    · rw [if_neg hlen, if_neg hlen, List.append_nil]
  · intro ctx st
    exact ⟨rfl, rfl⟩
  · intro flag st s hs hlen
    refine ⟨⟨st.pathPoints,
      flag || decide ((st.pathPoints.getLastD ⟨0, 0⟩).approx s), st.hasCurves⟩,
      ?_, rfl, rfl, ?_⟩
    · unfold finishSubpaths flushInto
      rw [hs]
      dsimp only
      rw [if_pos (by omega)]
    · simp only [Bool.or_eq_true, decide_eq_true_eq]
  · intro flag st hs hlen
    unfold finishSubpaths flushInto
    rw [hs]
    dsimp only
    rw [Bool.or_false, if_pos (by omega)]
  · intro flag st h
    unfold finishSubpaths flushInto
    rw [if_neg (by omega)]

/-- A Close example state: pen at `(5, 5)`, start `(0, 0)`, two collected
points. -/
def st6A : SubpathState :=
  ⟨[], some ⟨5, 5⟩, [⟨0, 0⟩, ⟨1, 0⟩], some ⟨0, 0⟩, false, [], []⟩

/-- An end-of-stream example whose last path point matches its recorded
start. -/
def st6B : SubpathState :=
  ⟨[⟨[⟨9, 9⟩, ⟨8, 8⟩], false, false⟩], none, [⟨0, 0⟩, ⟨2, 0⟩], some ⟨2, 0⟩,
    false, [], []⟩

/-- An end-of-stream example with no recorded start. -/
def st6D : SubpathState := ⟨[], none, [⟨0, 0⟩, ⟨1, 1⟩], none, true, [], []⟩

/-- An end-of-stream example with a single leftover point. -/
def st6C : SubpathState :=
  ⟨[⟨[⟨1, 1⟩, ⟨2, 2⟩], true, false⟩], none, [⟨3, 3⟩], some ⟨3, 3⟩, false, [], []⟩

/-- Witness for C6 amended: every part applied at a concrete state — a
Close with pen away from the start, an end-of-stream flush whose last
point matches the recorded start, one with no recorded start, and a
single-point leftover that is discarded. -/
theorem claim_C6_witness :
    (st6A.pathStart = some ⟨0, 0⟩ ∧ st6A.currentPoint = some ⟨5, 5⟩ ∧
     (stepCmd ctx6 st6A .close).pathPoints = [] ∧
     (stepCmd ctx6 st6A .close).hasCurves = false ∧
     (stepCmd ctx6 st6A .close).allSubpaths =
       st6A.allSubpaths ++
         (if 1 < (if ¬ Point.approx ⟨0, 0⟩ ⟨5, 5⟩ then st6A.pathPoints ++ [⟨0, 0⟩]
                  else st6A.pathPoints).length then
            [⟨(if ¬ Point.approx ⟨0, 0⟩ ⟨5, 5⟩ then st6A.pathPoints ++ [⟨0, 0⟩]
               else st6A.pathPoints), true, st6A.hasCurves⟩]
          else [])) ∧
    ((stepCmd ctx6 st6A .close).currentPoint = st6A.currentPoint ∧
     (stepCmd ctx6 st6A .close).pathStart = st6A.pathStart) ∧
    (st6B.pathStart = some ⟨2, 0⟩ ∧ 2 ≤ st6B.pathPoints.length ∧
     ∃ sp : Subpath,
       finishSubpaths false st6B = st6B.allSubpaths ++ [sp] ∧
       sp.points = st6B.pathPoints ∧ sp.has_curves = st6B.hasCurves ∧
       (sp.closed = true ↔
         (false = true ∨ Point.approx (st6B.pathPoints.getLastD ⟨0, 0⟩) ⟨2, 0⟩))) ∧
    (st6D.pathStart = none ∧ 2 ≤ st6D.pathPoints.length ∧
     finishSubpaths true st6D =
       st6D.allSubpaths ++ [⟨st6D.pathPoints, true, st6D.hasCurves⟩]) ∧
    (st6C.pathPoints.length < 2 ∧ finishSubpaths false st6C = st6C.allSubpaths) := by
  have h1 := claim_C6_amended.1 ctx6 st6A ⟨0, 0⟩ ⟨5, 5⟩ rfl rfl
  refine ⟨⟨rfl, rfl, h1.1, h1.2.1, h1.2.2⟩,
    claim_C6_amended.2.1 ctx6 st6A,
    ⟨rfl, by norm_num [st6B],
     claim_C6_amended.2.2.1 false st6B ⟨2, 0⟩ rfl (by norm_num [st6B])⟩,
    ⟨rfl, by norm_num [st6D],
     claim_C6_amended.2.2.2.1 true st6D rfl (by norm_num [st6D])⟩,
    ⟨by norm_num [st6C],
     claim_C6_amended.2.2.2.2 false st6C (by norm_num [st6C])⟩⟩

end PdfExtract
